import Mathlib
namespace SvgAnim

/-!
Verification development for the `svg-anim-demo` repository.

Shallow embedding of the core components:
  * `src/svg_anim_demo/runtime/state_store.py`   (`StateStore`)
  * `src/svg_anim_demo/runtime/reconcile.py`     (`reconcile_with_dom`)
  * `src/svg_anim_demo/compiler/layer_compiler.py` (`LayerCompiler`)
  * `src/svg_anim_demo/api/runtime_service.py`   (`RuntimeService._clamp_props` et al.)

Modelling conventions used throughout:
  * Python `float` is modelled by `ℚ` (exact arithmetic; IEEE-754 rounding is
    not modelled).
  * Python dictionaries holding heterogeneous JSON-like data are modelled by
    the inductive `Value` type; dict insertion order is modelled by the order
    of association lists.
  * Mutation is modelled by explicit state passing; `deepcopy` is the identity
    on immutable Lean values.
  * Calls to `datetime.now` are modelled by threading an explicit `now : String`
    argument.
  * Python code that raises an exception is modelled by `Option` results
    (`none` = the call raised).
-/
/-- JSON-like runtime value, the payload type of the loosely typed property
dictionaries (`props`, DOM snapshots, `origin` values).  `null` models Python
`None`; `obj` models a dict with numeric fields such as an origin
`{"x": .., "y": ..}` (the only dict shape the modelled code paths ever build;
deeper nesting is not modelled).  Dict equality is modelled as ordered-field
equality of the association list (Python's dict `==` ignores insertion order;
the claims below only ever compare `null` or identically-ordered objects, so
the difference is inert). -/
inductive Value where
  | num (q : ℚ)
  | str (s : String)
  | bool (b : Bool)
  | null
  | obj (fields : List (String × ℚ))
deriving DecidableEq, Repr

/-- Numeric view used by `reconcile._values_different`'s
`isinstance(a, (int, float))` test.  Python `bool` is a subclass of `int`,
so `True` counts as the number 1 and `False` as 0. -/
def Value.toNum? : Value → Option ℚ
  | .num q => some q
  | .bool b => some (if b then 1 else 0)
  | _ => none

/-- Python `float(value)` as used by `StateStore._normalize_props` on numeric
fields.  Numbers and booleans convert; other values raise (`none`).
(Python would also parse numeric strings such as `"7"`; string parsing is not
modelled — such props are treated as the error case, which no claim
exercises.) -/
def pyFloat : Value → Option ℚ
  | .num q => some q
  | .bool b => some (if b then 1 else 0)
  | _ => none

/-- Python `bool(value)` truthiness, as used for the `visible` field. -/
def pyBool : Value → Bool
  | .num q => q != 0
  | .str s => s != ""
  | .bool b => b
  | .null => false
  | .obj l => !l.isEmpty

/-- Python `str(value)` as used for `status` / `lastUpdate`.  The decimal
representation of numbers is not modelled (`none`); no claim exercises it. -/
def pyStr : Value → Option String
  | .str s => some s
  | .bool b => some (if b then "True" else "False")
  | .null => some "None"
  | _ => none

/-- `state_store._clamp_opacity`. -/
def clampOpacity (q : ℚ) : ℚ := max 0 (min 1 q)

/-- Mutable per-layer runtime state (`state_store._default_layer_state` lists
exactly these fields; every state ever stored in `StateStore.current` carries
all of them). -/
structure LayerState where
  x : ℚ
  y : ℚ
  scale : ℚ
  rotation : ℚ
  opacity : ℚ
  visible : Bool
  origin : Value
  status : String
  lastUpdate : String
  z : ℚ
deriving DecidableEq, Repr

/-- `state_store._default_layer_state` (with the `_iso_now()` timestamp passed
in explicitly).  The optional compile-time default origin is `defaultOrigin`. -/
def defaultLayerState (defaultOrigin : Value := Value.null) (now : String) : LayerState :=
  { x := 0, y := 0, scale := 1, rotation := 0, opacity := 1, visible := true
    origin := defaultOrigin, status := "idle", lastUpdate := now, z := 0 }

/-- The per-layer state map `StateStore.current` (`None` = layer id absent). -/
def StateMap := String → Option LayerState

/-- Single-key update of a state map (Python `current[layer_id] = v`). -/
def StateMap.insert (m : StateMap) (id : String) (v : LayerState) : StateMap :=
  fun k => if k = id then some v else m k

/-- `StateStore`: layer tree, current state and the two history stacks.
`layer_tree` is modelled as a total function because every Python read of it
is `layer_tree.get(id, [])` (a missing key and an explicitly stored `[]` are
observationally identical, so `_ensure_layer`'s `layer_tree[id] = []` write is
the identity here).  Stacks grow at the head (Python appends/pops at the end
of a list; the two representations are order-isomorphic). -/
structure Store where
  tree : String → List String
  current : StateMap
  history : List StateMap
  future : List StateMap

/-- `StateStore._ensure_layer` (its effect on `current`; see `Store.tree` for
why the tree write is the identity). -/
def Store.ensure (s : Store) (id : String) (now : String) : Store :=
  if (s.current id).isSome then s
  else { s with current := s.current.insert id (defaultLayerState Value.null now) }

/-- `StateStore._commit_history`: push a (deep copy of the) current state map
onto the undo stack and clear the redo stack. -/
def Store.commit (s : Store) : Store :=
  { s with history := s.current :: s.history, future := [] }

/-- The result of `StateStore._normalize_props`: a dict whose keys are a
subset of the tracked fields, with per-field value types fixed by the
normalization coercions.  Modelled as a record of optional fields (dict
content equality is key-set + value equality, so insertion order is dropped). -/
structure NormProps where
  x : Option ℚ := none
  y : Option ℚ := none
  scale : Option ℚ := none
  rotation : Option ℚ := none
  opacity : Option ℚ := none
  visible : Option Bool := none
  origin : Option Value := none
  status : Option String := none
  lastUpdate : Option String := none
  z : Option ℚ := none
deriving DecidableEq, Repr

/-- One step of the `for key, value in props.items()` loop of
`StateStore._normalize_props`.  Keys outside `TRACKED_FIELDS` are dropped
silently; coercion failures raise (`none`). -/
def normalizeStep (acc : NormProps) : String × Value → Option NormProps
  | ("opacity", v) => (pyFloat v).map fun q => { acc with opacity := some (clampOpacity q) }
  | ("scale", v) => (pyFloat v).map fun q => { acc with scale := some q }
  | ("x", v) => (pyFloat v).map fun q => { acc with x := some q }
  | ("y", v) => (pyFloat v).map fun q => { acc with y := some q }
  | ("rotation", v) => (pyFloat v).map fun q => { acc with rotation := some q }
  | ("z", v) => (pyFloat v).map fun q => { acc with z := some q }
  | ("visible", v) => some { acc with visible := some (pyBool v) }
  | ("origin", v) => some { acc with origin := some v }
  | ("status", v) => (pyStr v).map fun t => { acc with status := some t }
  | ("lastUpdate", v) => (pyStr v).map fun t => { acc with lastUpdate := some t }
  | (_, _) => some acc

/-- `StateStore._normalize_props`.  After the loop, `lastUpdate` defaults to
the current time if the props did not supply it. -/
def normalizeProps (props : List (String × Value)) (now : String) : Option NormProps := do
  let acc ← props.foldlM normalizeStep {}
  pure { acc with lastUpdate := some (acc.lastUpdate.getD now) }

/-- Python `current[layer_id].update(normalized)`: field-wise shallow merge. -/
def mergeState (st : LayerState) (np : NormProps) : LayerState :=
  { x := np.x.getD st.x, y := np.y.getD st.y, scale := np.scale.getD st.scale
    rotation := np.rotation.getD st.rotation, opacity := np.opacity.getD st.opacity
    visible := np.visible.getD st.visible, origin := np.origin.getD st.origin
    status := np.status.getD st.status, lastUpdate := np.lastUpdate.getD st.lastUpdate
    z := np.z.getD st.z }

/-- The state read `self.current[child_id]` performed right after
`_ensure_layer(child_id)` (always present; the default is the value `ensure`
would have written). -/
def StateMap.getSt (m : StateMap) (id : String) (now : String) : LayerState :=
  (m id).getD (defaultLayerState Value.null now)

/-- The per-child body of `StateStore._propagate_group_delta`: add the
additive deltas, multiply scale, multiply-and-clamp opacity, stamp
`lastUpdate`. -/
def childApply (cb : LayerState) (dx dy drot dz scaleRatio opacityRatio : ℚ)
    (now : String) : LayerState :=
  { cb with
    x := cb.x + dx, y := cb.y + dy, rotation := cb.rotation + drot, z := cb.z + dz
    scale := cb.scale * scaleRatio
    opacity := clampOpacity (cb.opacity * opacityRatio)
    lastUpdate := now }

/-- `StateStore._propagate_group_delta`, with an explicit recursion-depth fuel
(the Python recursion is unbounded; on the acyclic layer trees the claims are
about, any fuel exceeding the subtree depth gives the Python behaviour — see
`propagateFuel_eq_propagateT` below).  In Python, the net effect of
`_ensure_layer(child_id)` followed by the in-place field updates of
`current[child_id]` is captured by reading with the ensure default (`getSt`)
and writing the updated state back (`insert`). -/
def propagateFuel (tree : String → List String) (now : String) :
    Nat → StateMap → String → LayerState → LayerState → StateMap
  | 0, cur, _, _, _ => cur
  | fuel + 1, cur, id, oldP, newP =>
    let children := tree id
    if children = [] then cur
    else
      children.foldl
        (fun acc childId =>
          let cb := acc.getSt childId now
          let ca := childApply cb (newP.x - oldP.x) (newP.y - oldP.y)
            (newP.rotation - oldP.rotation) (newP.z - oldP.z)
            (if oldP.scale = 0 then 1 else newP.scale / oldP.scale)
            (if oldP.opacity = 0 then 1 else newP.opacity / oldP.opacity) now
          propagateFuel tree now fuel (acc.insert childId ca) childId cb ca)
        cur

/-- The loop body of the `for child_id in children` loop of
`_propagate_group_delta`, named for the proofs below (definitionally the
lambda inside `propagateFuel`). -/
def propChildStep (tree : String → List String) (now : String) (fuel : Nat)
    (dx dy drot dz scaleRatio opacityRatio : ℚ)
    (acc : StateMap) (childId : String) : StateMap :=
  let cb := acc.getSt childId now
  let ca := childApply cb dx dy drot dz scaleRatio opacityRatio now
  propagateFuel tree now fuel (acc.insert childId ca) childId cb ca

/-- `StateStore.set(layer_id, props, propagate)`.  Returns the applied
(normalized) props and the new store; `none` models the normalization
exception path. -/
def Store.set (s : Store) (id : String) (props : List (String × Value))
    (propagate : Bool := true) (now : String) (fuel : Nat) :
    Option (NormProps × Store) := do
  let s1 := s.ensure id now
  let s2 := s1.commit
  let oldP := s2.current.getSt id now
  let np ← normalizeProps props now
  let newP := mergeState oldP np
  let cur3 := s2.current.insert id newP
  let cur4 :=
    if propagate ∧ s.tree id ≠ [] then
      propagateFuel s.tree now fuel cur3 id oldP newP
    else cur3
  pure (np, { s2 with current := cur4 })

/-- A `batch_set` change entry: `layerId` may be missing (`none`) or falsy
(the empty string); for `props`, `none` models a missing `"props"` key
(Python `change.get("props", {})` then yields `{}`), `some none` models a
present but non-dict value, and `some (some items)` a dict with the given
items. -/
structure BatchChange where
  layerId : Option String
  props : Option (Option (List (String × Value)))

/-- `change.get("props", {})` followed by the `isinstance(props, dict)` test:
`some items` iff the entry's props is a dict, giving its items. -/
def BatchChange.propsDict (c : BatchChange) : Option (List (String × Value)) :=
  match c.props with
  | none => some []
  | some none => none
  | some (some items) => some items

/-- Whether a `batch_set` entry survives the
`if not layer_id or not isinstance(props, dict): continue` filter. -/
def BatchChange.valid (c : BatchChange) : Bool :=
  (match c.layerId with | some lid => lid != "" | none => false) && c.propsDict.isSome

/-- The per-change body of the `batch_set` loop (no history commit). -/
def Store.applyOne (s : Store) (lid : String) (items : List (String × Value))
    (propagate : Bool) (now : String) (fuel : Nat) : Option (NormProps × Store) := do
  let s1 := s.ensure lid now
  let oldP := s1.current.getSt lid now
  let np ← normalizeProps items now
  let newP := mergeState oldP np
  let cur3 := s1.current.insert lid newP
  let cur4 :=
    if propagate ∧ s.tree lid ≠ [] then
      propagateFuel s.tree now fuel cur3 lid oldP newP
    else cur3
  pure (np, { s1 with current := cur4 })

/-- One iteration of the `for change in changes` loop of
`StateStore.batch_set`: invalid entries (`continue`) leave the accumulator
untouched, valid ones apply the change and append to the applied list. -/
def Store.batchStep (propagate : Bool) (now : String) (fuel : Nat)
    (acc : List (String × NormProps) × Store) (c : BatchChange) :
    Option (List (String × NormProps) × Store) :=
  match c.layerId, c.propsDict with
  | some lid, some items =>
    if lid = "" then pure acc
    else do
      let (np, s') ← (acc.2).applyOne lid items propagate now fuel
      pure (acc.1 ++ [(lid, np)], s')
  | _, _ => pure acc

/-- `StateStore.batch_set(changes, propagate)`: one history snapshot for the
whole batch, then each valid change is normalized/merged/propagated; invalid
entries are dropped silently. -/
def Store.batchSet (s : Store) (changes : List BatchChange)
    (propagate : Bool := true) (now : String) (fuel : Nat) :
    Option (List (String × NormProps) × Store) :=
  changes.foldlM (Store.batchStep propagate now fuel)
    (([] : List (String × NormProps)), s.commit)

/-- `StateStore.undo()`. -/
def Store.undo (s : Store) : Bool × Store :=
  match s.history with
  | [] => (false, s)
  | h :: rest => (true, { s with current := h, history := rest, future := s.current :: s.future })

/-- `StateStore.redo()`. -/
def Store.redo (s : Store) : Bool × Store :=
  match s.future with
  | [] => (false, s)
  | f :: rest => (true, { s with current := f, future := rest, history := s.current :: s.history })

/-- `StateStore.get_layer_state(layer_id)`: `_ensure_layer` followed by a
deep-copied read.  Note that this mutates the store (the returned store has
the layer auto-created). -/
def Store.getLayerState (s : Store) (id : String) (now : String) : LayerState × Store :=
  let s1 := s.ensure id now
  (s1.current.getSt id now, s1)

/-- A sequence of `StateStore.set` calls (each with the default
`propagate=True`), as in the undo/redo exactness property. -/
def applySets (now : String) (fuel : Nat) :
    Store → List (String × List (String × Value)) → Option Store
  | s, [] => pure s
  | s, (id, props) :: rest => do
    let (_, s') ← s.set id props true now fuel
    applySets now fuel s' rest

/-- `n` consecutive `undo()` calls; the boolean is the conjunction of the
returned flags. -/
def undoN : Nat → Store → Bool × Store
  | 0, s => (true, s)
  | n + 1, s =>
    let (ok, s1) := s.undo
    let (ok2, s2) := undoN n s1
    (ok && ok2, s2)

/-! ### Reconciliation engine (`runtime/reconcile.py`) -/
/-- `RECONCILE_FIELDS`. -/
def reconcileFields : List String :=
  ["x", "y", "scale", "rotation", "opacity", "visible", "origin", "status", "z"]

/-- The store-side value of a tracked field (`store_state.get(field)`).
Every reachable store state carries every tracked field (see
`defaultLayerState`), so the `field not in store_state` skip in the source
never fires and the `.get` never returns `None`. -/
def fieldValue (st : LayerState) : String → Value
  | "x" => .num st.x
  | "y" => .num st.y
  | "scale" => .num st.scale
  | "rotation" => .num st.rotation
  | "opacity" => .num st.opacity
  | "visible" => .bool st.visible
  | "origin" => st.origin
  | "status" => .str st.status
  | "z" => .num st.z
  | _ => .null

/-- `reconcile._values_different` (Python `bool` is an `int`, so booleans
count as numeric on the `isinstance` test). -/
def valuesDifferent (a b : Value) (tol : ℚ) : Bool :=
  match a.toNum?, b.toNum? with
  | some x, some y => |x - y| > tol
  | _, _ => a != b

/-- An externally supplied per-layer DOM state (a partial dict). -/
def DomState := List (String × Value)

/-- The `for field in RECONCILE_FIELDS` loop for one layer: returns
`(needs_change, update_for_store, update_for_dom)`.  `authStore` encodes
`authoritative == "store"` (with a valid `prefer`, `authoritative` is always
one of the two).  The `field not in dom_state and field not in store_state`
skip is omitted: the store side always carries every tracked field, so it is
unreachable, as is the `authoritative == "store" and field not in
store_state` skip. -/
def reconcileFieldsFor (st : LayerState) (domState : DomState)
    (authStore : Bool) (tol : ℚ) :
    Bool × List (String × Value) × List (String × Value) :=
  reconcileFields.foldl
    (fun acc f =>
      if !authStore && (domState.lookup f).isNone then acc
      else
        let sv := fieldValue st f
        let dv := (domState.lookup f).getD .null
        if !(valuesDifferent sv dv tol) then acc
        else if authStore then (true, acc.2.1, acc.2.2 ++ [(f, sv)])
        else (true, acc.2.1 ++ [(f, dv)], acc.2.2))
    (false, [], [])

/-- The accumulator of the layer loop of `reconcile_with_dom`. -/
structure ReconcileAcc where
  changed : List String
  domPatch : List (String × List (String × Value))
  store : Store

/-- The body of one iteration of the `for layer_id, dom_state in
dom_layers.items()` loop once the layer has been found in the store
(`update_for_store` and `update_for_dom` are the `.2.1` / `.2.2` projections
of the field-loop result; `none` models an exception escaping `store.set`). -/
def reconcileLayerHit (now : String) (fuel : Nat) (tol : ℚ) (prefer : String)
    (dryRun : Bool) (acc : ReconcileAcc) (layerId : String) (domState : DomState)
    (st : LayerState) : Option ReconcileAcc :=
  if !(reconcileFieldsFor st domState
      (if st.status = "locked" then true else prefer == "store") tol).1 then
    some acc
  else if dryRun then
    some ⟨acc.changed ++ [layerId], acc.domPatch, acc.store⟩
  else
    match (if (reconcileFieldsFor st domState
            (if st.status = "locked" then true else prefer == "store") tol).2.1 ≠ [] then
        (acc.store.set layerId (reconcileFieldsFor st domState
          (if st.status = "locked" then true else prefer == "store") tol).2.1
          false now fuel).map Prod.snd
      else some acc.store) with
    | none => none
    | some store2 =>
      some ⟨acc.changed ++ [layerId],
        if (reconcileFieldsFor st domState
            (if st.status = "locked" then true else prefer == "store") tol).2.2 ≠ [] then
          acc.domPatch ++ [(layerId, (reconcileFieldsFor st domState
            (if st.status = "locked" then true else prefer == "store") tol).2.2)]
        else acc.domPatch,
        store2⟩

/-- One iteration of the `for layer_id, dom_state in dom_layers.items()`
loop: layers absent from the store are skipped. -/
def reconcileLayer (now : String) (fuel : Nat) (tol : ℚ) (prefer : String)
    (dryRun : Bool) (acc : ReconcileAcc) (entry : String × DomState) :
    Option ReconcileAcc :=
  match acc.store.current entry.1 with
  | none => some acc
  | some st => reconcileLayerHit now fuel tol prefer dryRun acc entry.1 entry.2 st

/-- Ascending insertion of a string (Python `sorted` is ascending and the
inserted element goes before the first element not smaller than it). -/
def insertStr (a : String) : List String → List String
  | [] => [a]
  | b :: rest => if compare a b = .gt then b :: insertStr a rest else a :: b :: rest

def sortStrs : List String → List String
  | [] => []
  | a :: rest => insertStr a (sortStrs rest)

/-- Python `sorted(set(xs))`: deduplicate, then sort ascending. -/
def sortedDedup (l : List String) : List String := sortStrs l.eraseDups

/-- `reconcile_with_dom(store, dom_layers, prefer, dry_run, tolerance)`.
Returns `(changed_layer_ids, dom_patch, store)`; `none` models the
`ValueError` on an invalid `prefer` (and any exception from `store.set`). -/
def reconcileWithDom (s : Store) (domLayers : List (String × DomState))
    (prefer : String) (dryRun : Bool) (tol : ℚ) (now : String) (fuel : Nat) :
    Option (List String × List (String × List (String × Value)) × Store) :=
  if prefer ≠ "dom" ∧ prefer ≠ "store" then none
  else do
    let acc ← domLayers.foldlM (reconcileLayer now fuel tol prefer dryRun)
      ⟨[], [], s⟩
    pure (sortedDedup acc.changed, acc.domPatch, acc.store)

/-! ### Document compiler (`compiler/layer_compiler.py`)

The XML parse (`ET.fromstring`) is outside the embedding: the compiler is
modelled from the parsed node tree, with tags already namespace-stripped as
`_strip_ns` does.  The two content hashes (`hashlib.sha1` truncated to 12 hex
digits for fingerprints, `hashlib.sha256` for checksums) are modelled by
abstract functions `hfp`/`hsum` applied to the same canonical serialization
the source hashes — every claim below holds for every choice of these
functions. -/
inductive XNode where
  | mk (tag : String) (attrs : List (String × String)) (text : String)
      (children : List XNode)

def XNode.tag : XNode → String
  | .mk t _ _ _ => t

def XNode.attrs : XNode → List (String × String)
  | .mk _ a _ _ => a

def XNode.text : XNode → String
  | .mk _ _ t _ => t

def XNode.children : XNode → List XNode
  | .mk _ _ _ c => c

def shapeTags : List String :=
  ["rect", "circle", "ellipse", "line", "polygon", "polyline", "path"]

/-- The structural/non-visual tags skipped by `_collect_layers.visit`. -/
def structuralTags : List String :=
  ["defs", "clipPath", "mask", "style", "metadata", "title", "desc"]

/-! Python string primitives, implemented over the character list so that
concrete instances evaluate inside the kernel (the compiled `String.trim`,
`String.replace`, `String.toLower`, `String.split` and `String.startsWith`
primitives do not reduce definitionally). -/
/-- Python `str.strip()`. -/
def pyStrip (s : String) : String :=
  String.mk (((s.data.dropWhile Char.isWhitespace).reverse.dropWhile Char.isWhitespace).reverse)

/-- Python `str.lower()`. -/
def pyLower (s : String) : String :=
  String.mk (s.data.map Char.toLower)

/-- Python `str.replace(old, new)` for single-character `old`/`new`. -/
def replaceChar (a b : Char) : List Char → List Char :=
  List.map (fun c => if c = a then b else c)

/-- Python `str.replace("px", "")` (left-to-right, non-overlapping). -/
def stripPx : List Char → List Char
  | 'p' :: 'x' :: rest => stripPx rest
  | c :: rest => c :: stripPx rest
  | [] => []

/-- Splitting at every separator character (`str.split(sep)` semantics,
empty segments included; all uses below filter them out, matching the
run-splitting of `re.split` / no-argument `str.split`). -/
def pySplitP (p : Char → Bool) : List Char → List (List Char)
  | [] => [[]]
  | c :: rest =>
    let r := pySplitP p rest
    if p c then [] :: r
    else
      match r with
      | g :: gs => (c :: g) :: gs
      | [] => [[c]]

/-- Python `str.startswith(pre)`. -/
def pyStartsWith (pre s : String) : Bool :=
  pre.data.isPrefixOf s.data

/-- Decimal-string parsing for `_to_float` (`float(cleaned)`); exponent and
special forms are treated as unparseable — Python would accept some of them,
but no bounding-box claim exercises such attribute values. -/
def digitsToNat : List Char → Option Nat
  | [] => some 0
  | c :: rest =>
    if c.isDigit then
      (digitsToNat rest).map fun n => (c.toNat - 48) * 10 ^ rest.length + n
    else none

def parseDecQ (s : String) : Option ℚ :=
  let (sign, cs) : ℚ × List Char :=
    match s.data with
    | '-' :: rest => (-1, rest)
    | '+' :: rest => (1, rest)
    | cs => (1, cs)
  let intPart := cs.takeWhile (· ≠ '.')
  let rest := cs.dropWhile (· ≠ '.')
  match rest with
  | [] =>
    if intPart = [] then none
    else (digitsToNat intPart).map fun n => sign * n
  | _ :: fracPart =>
    if fracPart.any (· = '.') then none
    else if intPart = [] ∧ fracPart = [] then none
    else
      match digitsToNat intPart, digitsToNat fracPart with
      | some i, some f => some (sign * ((i : ℚ) + (f : ℚ) / 10 ^ fracPart.length))
      | _, _ => none

/-- `_to_float(value, default)`. -/
def toFloat (value : Option String) (default : ℚ := 0) : ℚ :=
  match value with
  | none => default
  | some s =>
    let cleaned := String.mk (stripPx (pyStrip s).data)
    if cleaned = "" then default
    else (parseDecQ cleaned).getD default

structure BBox where
  x : ℚ
  y : ℚ
  width : ℚ
  height : ℚ
  cx : ℚ
  cy : ℚ
deriving DecidableEq, Repr

/-- `_bbox_union`. -/
def bboxUnion (boxes : List BBox) : BBox :=
  match boxes with
  | [] => ⟨0, 0, 0, 0, 0, 0⟩
  | b :: rest =>
    let minX := rest.foldl (fun m bb => min m bb.x) b.x
    let minY := rest.foldl (fun m bb => min m bb.y) b.y
    let maxX := rest.foldl (fun m bb => max m (bb.x + bb.width)) (b.x + b.width)
    let maxY := rest.foldl (fun m bb => max m (bb.y + bb.height)) (b.y + b.height)
    let w := max 0 (maxX - minX)
    let h := max 0 (maxY - minY)
    ⟨minX, minY, w, h, minX + w / 2, minY + h / 2⟩

/-- `_parse_points` (normalize commas to spaces, split on whitespace, take
coordinate pairs while two tokens remain). -/
def pairUp : List String → List (ℚ × ℚ)
  | a :: b :: rest => (toFloat (some a), toFloat (some b)) :: pairUp rest
  | _ => []

def parsePoints (value : String) : List (ℚ × ℚ) :=
  pairUp (((pySplitP (·.isWhitespace) (replaceChar ',' ' ' value.data)).map
    String.mk).filter (· ≠ ""))

def xattr (n : XNode) (k : String) : Option String := n.attrs.lookup k

/-- `_bbox_for_element`. -/
def bboxForElement (n : XNode) : BBox :=
  if n.tag = "rect" then
    let x := toFloat (xattr n "x")
    let y := toFloat (xattr n "y")
    let w := max 0 (toFloat (xattr n "width"))
    let h := max 0 (toFloat (xattr n "height"))
    ⟨x, y, w, h, x + w / 2, y + h / 2⟩
  else if n.tag = "circle" then
    let cx := toFloat (xattr n "cx")
    let cy := toFloat (xattr n "cy")
    let r := max 0 (toFloat (xattr n "r"))
    ⟨cx - r, cy - r, 2 * r, 2 * r, cx, cy⟩
  else if n.tag = "ellipse" then
    let cx := toFloat (xattr n "cx")
    let cy := toFloat (xattr n "cy")
    let rx := max 0 (toFloat (xattr n "rx"))
    let ry := max 0 (toFloat (xattr n "ry"))
    ⟨cx - rx, cy - ry, 2 * rx, 2 * ry, cx, cy⟩
  else if n.tag = "line" then
    let x1 := toFloat (xattr n "x1")
    let y1 := toFloat (xattr n "y1")
    let x2 := toFloat (xattr n "x2")
    let y2 := toFloat (xattr n "y2")
    let minX := min x1 x2
    let minY := min y1 y2
    let w := |x2 - x1|
    let h := |y2 - y1|
    ⟨minX, minY, w, h, minX + w / 2, minY + h / 2⟩
  else if n.tag = "polygon" ∨ n.tag = "polyline" then
    match parsePoints ((xattr n "points").getD "") with
    | [] => ⟨0, 0, 0, 0, 0, 0⟩
    | p :: rest =>
      let minX := rest.foldl (fun m q => min m q.1) p.1
      let maxX := rest.foldl (fun m q => max m q.1) p.1
      let minY := rest.foldl (fun m q => min m q.2) p.2
      let maxY := rest.foldl (fun m q => max m q.2) p.2
      let w := max 0 (maxX - minX)
      let h := max 0 (maxY - minY)
      ⟨minX, minY, w, h, minX + w / 2, minY + h / 2⟩
  else if n.tag = "path" ∨ n.tag = "text" ∨ n.tag = "image" then
    let x := toFloat (xattr n "x")
    let y := toFloat (xattr n "y")
    let w := max 0 (toFloat (xattr n "width") 1)
    let h := max 0 (toFloat (xattr n "height") 1)
    ⟨x, y, w, h, x + w / 2, y + h / 2⟩
  else ⟨0, 0, 0, 0, 0, 0⟩

inductive LayerType where
  | text
  | shape
  | group
  | image
  | unknown
deriving DecidableEq, Repr

def LayerType.value : LayerType → String
  | .text => "text"
  | .shape => "shape"
  | .group => "group"
  | .image => "image"
  | .unknown => "unknown"

/-- `_infer_type`. -/
def inferType (tag : String) : LayerType :=
  if tag = "text" then .text
  else if shapeTags.contains tag then .shape
  else if tag = "g" then .group
  else if tag = "image" then .image
  else .unknown

structure LayerCapabilities where
  move : Bool
  scale : Bool
  rotate : Bool
  opacity : Bool
  depth : Bool
  maxRotation : Option ℚ
  minDepth : Option ℚ
  maxDepth : Option ℚ
  effect : Bool
  jitter : Bool
deriving DecidableEq, Repr

/-- `_infer_capabilities`. -/
def inferCapabilities (t : LayerType) : LayerCapabilities :=
  let base : LayerCapabilities :=
    { move := true, scale := true, rotate := true, opacity := true, depth := true
      maxRotation := some 45, minDepth := some (-200), maxDepth := some 200
      effect := false, jitter := false }
  match t with
  | .shape => { base with effect := true, jitter := true }
  | .image => { base with effect := true }
  | .group => { base with effect := true }
  | .text => base
  | .unknown => base

/-- Ascending insertion sort of attribute pairs by key
(`sorted(node.attrib.items())`). -/
def insertPair (a : String × String) : List (String × String) → List (String × String)
  | [] => [a]
  | b :: rest => if compare a.1 b.1 = .gt then b :: insertPair a rest else a :: b :: rest

def sortPairs : List (String × String) → List (String × String)
  | [] => []
  | a :: rest => insertPair a (sortPairs rest)

/-- The canonical serialization hashed by `_fingerprint_for_node`
(the key-sorted `{tag, non-id attrs with stripped values, trimmed text}`). -/
def canonNode (n : XNode) : String :=
  let attrs := (sortPairs n.attrs).filter (fun kv => kv.1 ≠ "id")
  "attrs:[" ++ String.intercalate ","
      (attrs.map fun kv => kv.1 ++ "=" ++ pyStrip kv.2)
    ++ "];tag:" ++ n.tag ++ ";text:" ++ pyStrip n.text

/-- `_fingerprint_for_node` with `sha1(...)[:12]` abstracted to `hfp`. -/
def fingerprintForNode (hfp : String → String) (n : XNode) : String :=
  hfp (canonNode n)

/-- `_stable_layer_id`: sanitize an explicit id, otherwise synthesize one
from the tag and the fingerprint. -/
def stableLayerId (hfp : String → String) (n : XNode) : String :=
  let sourceId := pyStrip ((xattr n "id").getD "")
  if sourceId ≠ "" then
    String.mk (sourceId.data.map fun c =>
      if c.isAlphanum ∨ c = '_' ∨ c = '-' then c else '_')
  else "layer_" ++ n.tag ++ "_" ++ fingerprintForNode hfp n

/-- Python `a or b` on strings (first non-empty). -/
def orStr (a : Option String) (b : String) : String :=
  match a with
  | some s => if s = "" then b else s
  | none => b

/-- `_layer_label`. -/
def layerLabel (n : XNode) (layerId : String) : String :=
  let label := pyStrip (orStr (xattr n "data-label") (orStr (xattr n "inkscape:label") ""))
  if label ≠ "" then label
  else if pyStartsWith "layer_" layerId then
    let t := pyStrip (String.mk (replaceChar '_' ' ' (layerId.drop 6).data))
    if t = "" then layerId else t
  else layerId

/-- `_tokenize_aliases`: lowercase, split on runs of non-alphanumerics, keep
tokens longer than one character, deduplicate and sort. -/
def tokenizeAliases (values : List String) : List String :=
  let tokens := values.flatMap fun v =>
    if v = "" then []
    else (((pySplitP (fun c => !(c.isLower || c.isDigit)) (pyLower v).data).map
      String.mk).filter (fun t => t.length > 1))
  sortStrs tokens.eraseDups

/-- One compiled layer record of the full projection (the `constraints` dict
is flattened into the three fields the source always writes; `parent` and
`attributeCount` are the `metadata` entries). -/
structure Row where
  id : String
  label : String
  layerType : String
  bbox : BBox
  defaultOrigin : ℚ × ℚ
  zIndex : Nat
  tags : List String
  aliases : List String
  capabilities : LayerCapabilities
  fingerprint : String
  children : List String
  maxRotation : ℚ
  minDepth : ℚ
  maxDepth : ℚ
  parent : Option String
  attributeCount : Nat
deriving DecidableEq, Repr

/-- Python `value or default` on an optional float (both `None` and `0.0` are
falsy). -/
def orQ (v : Option ℚ) (d : ℚ) : ℚ :=
  match v with
  | some q => if q = 0 then d else q
  | none => d

mutual

/-- The recursive `visit(node, parent_id, z_counter)` closure of
`LayerCompiler._collect_layers`.  The mutable `z_counter` is the threaded
`Nat`; the `collected` accumulator is returned (rows appended in the same
order the Python list grows).  Returns `(bbox, next_z, rows)`. -/
def visitNode (hfp : String → String) (node : XNode) (parentId : Option String)
    (z : Nat) : Option BBox × Nat × List Row :=
  match node with
  | XNode.mk tag _ _ children =>
  if structuralTags.contains tag then (none, z, [])
  else
    let fingerprint := fingerprintForNode hfp node
    let layerId := stableLayerId hfp node
    let label := layerLabel node layerId
    let aliases := tokenizeAliases [layerId, label]
    let tags := tokenizeAliases [(xattr node "data-label").getD "", (xattr node "class").getD ""]
    let layerType := inferType tag
    let capabilities := inferCapabilities layerType
    let r := visitChildren hfp children layerId z
    let childBoxes := r.1
    let childIds := r.2.1
    let z2 := r.2.2.1
    let childRows := r.2.2.2
    let bbox :=
      if layerType = .group then bboxUnion childBoxes
      else if childBoxes ≠ [] then bboxUnion (bboxForElement node :: childBoxes)
      else bboxForElement node
    let row : Row :=
      { id := layerId, label := label, layerType := layerType.value, bbox := bbox
        defaultOrigin := (bbox.cx, bbox.cy), zIndex := z2, tags := tags
        aliases := aliases, capabilities := capabilities, fingerprint := fingerprint
        children := childIds
        maxRotation := orQ capabilities.maxRotation 45
        minDepth := orQ capabilities.minDepth (-200)
        maxDepth := orQ capabilities.maxDepth 200
        parent := parentId, attributeCount := node.attrs.length }
    (some bbox, z2 + 1, childRows ++ [row])

/-- The `for child in list(node)` loop of `visit`: visit each child in order,
collecting the boxes and ids of the children that yielded a bounding box.
Returns `(child_boxes, child_ids, next_z, rows)`. -/
def visitChildren (hfp : String → String) (children : List XNode) (parentId : String)
    (z : Nat) : List BBox × List String × Nat × List Row :=
  match children with
  | [] => ([], [], z, [])
  | c :: rest =>
    let childLayerId := stableLayerId hfp c
    let rc := visitNode hfp c (some parentId) z
    let rr := visitChildren hfp rest parentId rc.2.1
    match rc.1 with
    | none => (rr.1, rr.2.1, rr.2.2.1, rc.2.2 ++ rr.2.2.2)
    | some b => (b :: rr.1, childLayerId :: rr.2.1, rr.2.2.1, rc.2.2 ++ rr.2.2.2)
end

/-- `LayerCompiler._collect_layers`. -/
def collectLayers (hfp : String → String) (root : XNode) : List Row :=
  (visitNode hfp root none 0).2.2

/-- The z-index bookkeeping of a single `visit` call: structural nodes are
skipped entirely (no rows, counter untouched); a visited node emits its
subtree's rows followed by its own row, and the z-indices of that block are
the consecutive counter values starting at the entry counter — so the node's
own z-index (the last, largest one) strictly exceeds every z-index in its
subtree, children included. -/
def NodeP (hfp : String → String) (n : XNode) (p : Option String) (z : Nat) : Prop :=
  (structuralTags.contains n.tag = true → visitNode hfp n p z = (none, z, [])) ∧
  (structuralTags.contains n.tag = false →
    (visitNode hfp n p z).1.isSome = true ∧
    (visitNode hfp n p z).2.2 ≠ [] ∧
    (visitNode hfp n p z).2.1 = z + (visitNode hfp n p z).2.2.length ∧
    (visitNode hfp n p z).2.2.map Row.zIndex = List.range' z (visitNode hfp n p z).2.2.length ∧
    ((visitNode hfp n p z).2.2.getLast?).map Row.zIndex
      = some (z + (visitNode hfp n p z).2.2.length - 1) ∧
    (∀ r ∈ (visitNode hfp n p z).2.2.dropLast,
      r.zIndex < z + (visitNode hfp n p z).2.2.length - 1))

/-- The z-index bookkeeping of the child loop: the counter advances by the
number of rows produced, and the rows' z-indices are consecutive from the
entry counter. -/
def ListP (hfp : String → String) (cs : List XNode) (pid : String) (z : Nat) : Prop :=
  (visitChildren hfp cs pid z).2.2.1 = z + (visitChildren hfp cs pid z).2.2.2.length ∧
  (visitChildren hfp cs pid z).2.2.2.map Row.zIndex
    = List.range' z (visitChildren hfp cs pid z).2.2.2.length


/-- A layer record of the minimal/public projection: the full row minus
`children`, `constraints` and `metadata`. -/
structure MinRow where
  id : String
  label : String
  layerType : String
  bbox : BBox
  defaultOrigin : ℚ × ℚ
  zIndex : Nat
  tags : List String
  aliases : List String
  capabilities : LayerCapabilities
  fingerprint : String
deriving DecidableEq, Repr

def Row.toMin (r : Row) : MinRow :=
  { id := r.id, label := r.label, layerType := r.layerType, bbox := r.bbox
    defaultOrigin := r.defaultOrigin, zIndex := r.zIndex, tags := r.tags
    aliases := r.aliases, capabilities := r.capabilities, fingerprint := r.fingerprint }

/-- Ascending insertion sort by z-index
(`sorted(layer_rows, key=lambda item: item["zIndex"])`; the z-indices are
pairwise distinct, so stability is irrelevant). -/
def insertRowZ (a : Row) : List Row → List Row
  | [] => [a]
  | b :: rest => if b.zIndex ≤ a.zIndex then b :: insertRowZ a rest else a :: b :: rest

def sortRowsByZ : List Row → List Row
  | [] => []
  | a :: rest => insertRowZ a (sortRowsByZ rest)

structure LayerMapMinDoc where
  schemaVersion : String
  compilerVersion : String
  sourceChecksum : String
  generatedAt : String
  layerCount : Nat
  layers : List MinRow
deriving DecidableEq, Repr

structure LayerMapFullDoc where
  schemaVersion : String
  compilerVersion : String
  sourceChecksum : String
  generatedAt : String
  layerCount : Nat
  layers : List Row
deriving DecidableEq, Repr

structure CompileManifest where
  schemaVersion : String
  compilerVersion : String
  sourceChecksum : String
  layerMapMinChecksum : String
  layerMapFullChecksum : String
  generatedAt : String
deriving DecidableEq, Repr

/-- `LayerCompiler.compile` (minus the final pydantic validation round-trips,
which are identities on well-formed documents).  `hsum` abstracts
`_sha256_text`, and `encMin`/`encFull` abstract the canonical
`json.dumps(..., sort_keys=True)` serialization inside `_payload_checksum`. -/
def compile (hfp hsum : String → String)
    (encMin : LayerMapMinDoc → String) (encFull : LayerMapFullDoc → String)
    (compilerVersion : String) (svgText : String) (root : XNode)
    (generatedAt : String) :
    LayerMapMinDoc × LayerMapFullDoc × CompileManifest :=
  let sourceChecksum := hsum svgText
  let rowsSorted := sortRowsByZ (collectLayers hfp root)
  let layerMapMin : LayerMapMinDoc :=
    { schemaVersion := "1.0", compilerVersion := compilerVersion
      sourceChecksum := sourceChecksum, generatedAt := generatedAt
      layerCount := rowsSorted.length, layers := rowsSorted.map Row.toMin }
  let layerMapFull : LayerMapFullDoc :=
    { schemaVersion := "1.0", compilerVersion := compilerVersion
      sourceChecksum := sourceChecksum, generatedAt := generatedAt
      layerCount := rowsSorted.length, layers := rowsSorted }
  let manifest : CompileManifest :=
    { schemaVersion := "1.0", compilerVersion := compilerVersion
      sourceChecksum := sourceChecksum
      layerMapMinChecksum := hsum (encMin layerMapMin)
      layerMapFullChecksum := hsum (encFull layerMapFull)
      generatedAt := generatedAt }
  (layerMapMin, layerMapFull, manifest)

/-- A previous manifest as `needs_recompile` reads it: `.get`-style optional
fields.  A falsy manifest (Python `None` or `{}`) is modelled as `none`. -/
structure PrevManifest where
  sourceChecksum : Option String
  compilerVersion : Option String
deriving DecidableEq, Repr

/-- `LayerCompiler.needs_recompile`. -/
def needsRecompile (hsum : String → String) (compilerVersion : String)
    (svgText : String) (previous : Option PrevManifest) (manual : Bool) :
    Bool × Option String :=
  if manual then (true, some "manual_recompile")
  else
    match previous with
    | none => (true, some "missing_manifest")
    | some m =>
      if m.sourceChecksum ≠ some (hsum svgText) then (true, some "source_checksum_changed")
      else if m.compilerVersion ≠ some compilerVersion then (true, some "compiler_version_changed")
      else (false, none)

/-! ### Runtime service (`api/runtime_service.py`) -/
/-- `RuntimeService._layer_full_by_id`: linear scan of the compiled full
layer map; `none` models the raised `KeyError`.  It reads only the compiled
layer map — never the state store. -/
def layerFullById (layers : List Row) (layerId : String) : Option Row :=
  layers.find? (fun l => l.id == layerId)

/-- The `cap_map` of `RuntimeService._has_capability`. -/
def capMap : String → Option String
  | "x" => some "move"
  | "y" => some "move"
  | "scale" => some "scale"
  | "rotation" => some "rotate"
  | "opacity" => some "opacity"
  | "z" => some "depth"
  | _ => none

def capLookup (c : LayerCapabilities) : String → Bool
  | "move" => c.move
  | "scale" => c.scale
  | "rotate" => c.rotate
  | "opacity" => c.opacity
  | "depth" => c.depth
  | "effect" => c.effect
  | "jitter" => c.jitter
  | _ => false

/-- `RuntimeService._has_capability` (for a layer already found in the map). -/
def hasCapability (layer : Row) (prop : String) : Bool :=
  match capMap prop with
  | none => true
  | some key => capLookup layer.capabilities key

/-- In-place dict value replacement (Python `output[key] = v` for a key that
is present; compiled props dicts have no duplicate keys). -/
def setKey (l : List (String × Value)) (k : String) (v : Value) : List (String × Value) :=
  l.map fun kv => if kv.1 = k then (k, v) else kv

/-- `RuntimeService._clamp_props` for a compiled layer (whose `constraints`
dict always carries `maxRotation`, `minDepth` and `maxDepth`); `none` models
a `float()` coercion raising. -/
def clampProps (layer : Row) (props : List (String × Value)) :
    Option (List (String × Value)) :=
  Option.bind
    (match props.lookup "opacity" with
     | none => some props
     | some v => Option.map
        (fun q => setKey props "opacity" (Value.num (max 0 (min 1 q)))) (pyFloat v))
    (fun o1 =>
      Option.bind
        (match o1.lookup "rotation" with
         | none => some o1
         | some v => Option.map
            (fun q => setKey o1 "rotation"
              (Value.num (max (-|layer.maxRotation|) (min |layer.maxRotation| q))))
            (pyFloat v))
        (fun o2 =>
          match o2.lookup "z" with
          | none => some o2
          | some v => Option.map
              (fun q => setKey o2 "z"
                (Value.num (max layer.minDepth (min layer.maxDepth q))))
              (pyFloat v)))

/-- `RuntimeService.set_layer_state`: layer-map lookup (`KeyError` for
unknown ids), capability check (`PermissionError`), clamping, then the state
mutation `engine.run_set` performs, namely `store.set(layer_id, clamped,
propagate=True)` (run-record bookkeeping carries no state and is omitted).
Returns the clamped/applied props together with the store result. -/
def serviceSetLayerState (layers : List Row) (s : Store) (layerId : String)
    (props : List (String × Value)) (now : String) (fuel : Nat) :
    Option (List (String × Value) × NormProps × Store) :=
  match layerFullById layers layerId with
  | none => none
  | some layer =>
    if props.any (fun kv => !hasCapability layer kv.1) then none
    else do
      let clamped ← clampProps layer props
      let r ← s.set layerId clamped true now fuel
      pure (clamped, r.1, r.2)

/-! ### Concrete instances used by the claim theorems -/
/-- A store with no layers, no history (Python `StateStore()`). -/
def emptyStore : Store := ⟨fun _ => [], fun _ => none, [], []⟩

/-- One valid change followed by three invalid ones (missing `layerId`,
falsy `layerId`, non-dict `props`). -/
def c10changes : List BatchChange :=
  [⟨some "a", some (some [("x", Value.num 3)])⟩,
   ⟨none, none⟩,
   ⟨some "", some (some [])⟩,
   ⟨some "b", some none⟩]

/-- A store holding one layer `"a"` with default state (as
`StateStore.from_layer_map_full` would build for a single childless layer). -/
def c3store : Store :=
  ⟨fun _ => [], fun k => if k = "a" then some (defaultLayerState Value.null "t0") else none,
   [], []⟩

/-- A compiled shape row as `_collect_layers` emits for a childless shape:
its capabilities carry `maxRotation = 45`. -/
def c7row : Row :=
  { id := "a", label := "a", layerType := "shape", bbox := ⟨0, 0, 0, 0, 0, 0⟩,
    defaultOrigin := (0, 0), zIndex := 0, tags := [], aliases := [],
    capabilities := inferCapabilities LayerType.shape, fingerprint := "f",
    children := [], maxRotation := 45, minDepth := -200, maxDepth := 200,
    parent := none, attributeCount := 0 }

/-- The locked layer of the C4 scenario: store state `x = 7`,
`status = "locked"`. -/
def c4st : LayerState :=
  { defaultLayerState Value.null "t0" with
      x := 7
      status := "locked"
      lastUpdate := "t1" }

def c4store : Store :=
  ⟨fun _ => [], fun k => if k = "child_a" then some c4st else none, [], []⟩

/-- The external snapshot of the C4 scenario: `x = 99`, `status = "idle"`. -/
def c4dom : List (String × DomState) :=
  [("child_a", [("x", Value.num 99), ("status", Value.str "idle")])]

/-- The one-layer DOM patch `reconcile_with_dom` actually produces in the C4
scenario: with store authority, every field whose store value differs from the
DOM value (the DOM dict is partial, so every tracked field differs from its
missing entry) is pushed store → DOM. -/
def c4patch : List (String × Value) :=
  [("x", Value.num 7), ("y", Value.num 0), ("scale", Value.num 1),
   ("rotation", Value.num 0), ("opacity", Value.num 1),
   ("visible", Value.bool true), ("status", Value.str "locked"),
   ("z", Value.num 0)]

/-- The default float tolerance of `reconcile_with_dom` (`1e-6`). -/
def c4tol : ℚ := 1/1000000

/-- An abstract fingerprint hash for concrete compiler runs. -/
def c1hash : String → String := fun _ => "aaaa"

/-- `svg > g#g1 > rect#r1`: a group with one child. -/
def c1doc : XNode :=
  XNode.mk "svg" [] ""
    [XNode.mk "g" [("id", "g1")] ""
      [XNode.mk "rect"
        [("id", "r1"), ("x", "0"), ("y", "0"), ("width", "10"), ("height", "10")]
        "" []]]

theorem propagateFuel_succ (tree : String → List String) (now : String) (fuel : Nat)
    (cur : StateMap) (id : String) (oldP newP : LayerState) :
    propagateFuel tree now (fuel + 1) cur id oldP newP
      = (if tree id = [] then cur
         else (tree id).foldl
           (propChildStep tree now fuel (newP.x - oldP.x) (newP.y - oldP.y)
             (newP.rotation - oldP.rotation) (newP.z - oldP.z)
             (if oldP.scale = 0 then 1 else newP.scale / oldP.scale)
             (if oldP.opacity = 0 then 1 else newP.opacity / oldP.opacity)) cur) := rfl

theorem StateMap.insert_same (m : StateMap) (id : String) (v : LayerState) :
    m.insert id v id = some v := by
  simp [StateMap.insert]

theorem StateMap.insert_other (m : StateMap) (id k : String) (v : LayerState)
    (h : k ≠ id) : m.insert id v k = m k := by
  simp [StateMap.insert, h]

theorem StateMap.getSt_insert_other (m : StateMap) (id k : String) (v : LayerState)
    (now : String) (h : k ≠ id) : (m.insert id v).getSt k now = m.getSt k now := by
  simp [StateMap.getSt, StateMap.insert_other m id k v h]

/-! ### History bookkeeping lemmas (undo/redo and batching) -/
theorem StateMap.insert_isSome (m : StateMap) (id k : String) (v : LayerState)
    (h : (m k).isSome = true) : ((m.insert id v) k).isSome = true := by
  by_cases hk : k = id
  · subst hk; simp [StateMap.insert]
  · rwa [StateMap.insert_other m id k v hk]

theorem Store.ensure_current_of_isSome (s : Store) (id now : String)
    (h : (s.current id).isSome = true) : (s.ensure id now).current = s.current := by
  simp [Store.ensure, h]

theorem Store.ensure_tree (s : Store) (id now : String) : (s.ensure id now).tree = s.tree := by
  rw [Store.ensure]; split <;> rfl

theorem Store.ensure_history (s : Store) (id now : String) :
    (s.ensure id now).history = s.history := by
  rw [Store.ensure]; split <;> rfl

theorem Store.ensure_isSome_mono (s : Store) (id now k : String)
    (h : (s.current k).isSome = true) : ((s.ensure id now).current k).isSome = true := by
  rw [Store.ensure]
  by_cases hs : (s.current id).isSome
  · simpa [hs]
  · simp only [hs, if_neg]
    simpa using StateMap.insert_isSome _ _ _ _ h

theorem foldl_propChildStep_isSome (tree : String → List String) (now : String) (f : Nat)
    (dx dy drot dz sr oρ : ℚ)
    (ihf : ∀ (cur : StateMap) (id : String) (oldP newP : LayerState) (k : String),
      (cur k).isSome = true → ((propagateFuel tree now f cur id oldP newP) k).isSome = true) :
    ∀ (l : List String) (acc : StateMap) (k : String), (acc k).isSome = true →
      ((l.foldl (propChildStep tree now f dx dy drot dz sr oρ) acc) k).isSome = true := by
  intro l
  induction l with
  | nil => intro acc k h; simpa
  | cons c rest ih =>
    intro acc k h
    rw [List.foldl_cons]
    refine ih _ k ?_
    simp only [propChildStep]
    exact ihf _ _ _ _ k (StateMap.insert_isSome _ _ _ _ h)

theorem propagateFuel_isSome (tree : String → List String) (now : String) :
    ∀ (fuel : Nat) (cur : StateMap) (id : String) (oldP newP : LayerState) (k : String),
      (cur k).isSome = true → ((propagateFuel tree now fuel cur id oldP newP) k).isSome = true := by
  intro fuel
  induction fuel with
  | zero => intro cur id oldP newP k h; simpa [propagateFuel]
  | succ f ih =>
    intro cur id oldP newP k h
    rw [propagateFuel_succ]
    by_cases hc : tree id = []
    · simpa [hc]
    · rw [if_neg hc]
      exact foldl_propChildStep_isSome tree now f _ _ _ _ _ _ (fun cur' id' o n k' => ih cur' id' o n k') _ _ k h

/-- `StateStore.set` characterized: it succeeds exactly when normalization
does, pushes the (post-`_ensure_layer`) state map, clears the redo stack, and
only grows the domain of the state map. -/
theorem Store.set_eq_some {s : Store} {id : String} {props : List (String × Value)}
    {p : Bool} {now : String} {fuel : Nat} {np : NormProps} {s' : Store}
    (h : s.set id props p now fuel = some (np, s')) :
    normalizeProps props now = some np ∧
    s'.tree = s.tree ∧
    s'.history = (s.ensure id now).current :: s.history ∧
    s'.future = [] ∧
    s'.current =
      (if p ∧ s.tree id ≠ [] then
        propagateFuel s.tree now fuel
          (((s.ensure id now).current).insert id
            (mergeState ((s.ensure id now).current.getSt id now) np))
          id ((s.ensure id now).current.getSt id now)
          (mergeState ((s.ensure id now).current.getSt id now) np)
      else ((s.ensure id now).current).insert id
            (mergeState ((s.ensure id now).current.getSt id now) np)) := by
  cases hn : normalizeProps props now with
  | none => rw [Store.set] at h; simp [hn, Store.commit] at h
  | some np' =>
    rw [Store.set] at h
    simp only [hn, Store.commit, Option.pure_def, Option.bind_eq_bind, Option.some_bind,
      Option.some.injEq, Prod.mk.injEq] at h
    obtain ⟨h1, h2⟩ := h
    subst h1
    subst h2
    refine ⟨rfl, Store.ensure_tree s id now, ?_, rfl, rfl⟩
    rw [Store.ensure_history]

theorem Store.set_isSome_mono {s : Store} {id : String} {props : List (String × Value)}
    {p : Bool} {now : String} {fuel : Nat} {np : NormProps} {s' : Store}
    (h : s.set id props p now fuel = some (np, s')) (k : String)
    (hk : (s.current k).isSome = true) : (s'.current k).isSome = true := by
  have hc := (Store.set_eq_some h).2.2.2.2
  rw [hc]
  have hbase : ((((s.ensure id now).current).insert id
      (mergeState ((s.ensure id now).current.getSt id now) np)) k).isSome = true :=
    StateMap.insert_isSome _ _ _ _ (Store.ensure_isSome_mono s id now k hk)
  by_cases hp : p ∧ s.tree id ≠ []
  · rw [if_pos hp]
    exact propagateFuel_isSome _ _ _ _ _ _ _ _ hbase
  · rwa [if_neg hp]

theorem getLastD_append_singleton : ∀ (l : List StateMap) (a d : StateMap),
    (l ++ [a]).getLastD d = a := by
  intro l
  induction l with
  | nil => intro a d; rfl
  | cons b rest ih =>
    intro a d
    rw [List.cons_append, List.getLastD_cons]
    exact ih a b

/-- After a successful sequence of `set` calls, each targeting a layer id
already present in the store, the undo stack has grown by exactly one
snapshot per call, the deepest of which is the original state map. -/
theorem applySets_history (now : String) (fuel : Nat) :
    ∀ (calls : List (String × List (String × Value))) (s sN : Store),
      applySets now fuel s calls = some sN →
      (∀ c ∈ calls, (s.current c.1).isSome = true) →
      ∃ l : List StateMap, l.length = calls.length ∧
        sN.history = l ++ s.history ∧ l.getLastD sN.current = s.current := by
  intro calls
  induction calls with
  | nil =>
    intro s sN h _
    rw [applySets] at h
    obtain rfl : s = sN := by simpa using h
    exact ⟨[], rfl, rfl, rfl⟩
  | cons c rest ih =>
    intro s sN h hknown
    obtain ⟨id, props⟩ := c
    rw [applySets] at h
    cases hset : s.set id props true now fuel with
    | none => rw [hset] at h; simp at h
    | some v =>
      obtain ⟨np, s1⟩ := v
      rw [hset] at h
      simp only [Option.bind_eq_bind, Option.some_bind] at h
      have hk0 : (s.current id).isSome = true := hknown _ (List.mem_cons_self _ _)
      have hpush : s1.history = s.current :: s.history := by
        have := (Store.set_eq_some hset).2.2.1
        rwa [Store.ensure_current_of_isSome s id now hk0] at this
      have hknown1 : ∀ cc ∈ rest, (s1.current cc.1).isSome = true := fun cc hcc =>
        Store.set_isSome_mono hset _ (hknown cc (List.mem_cons_of_mem _ hcc))
      obtain ⟨l', hlen, hhist, hlast⟩ := ih s1 sN h hknown1
      refine ⟨l' ++ [s.current], by simpa using hlen, ?_, ?_⟩
      · rw [hhist, hpush, List.append_assoc, List.singleton_append]
      · rw [getLastD_append_singleton]

/-- `n` undos pop exactly the first `n` history entries, all succeeding, and
leave as current state the deepest popped snapshot. -/
theorem undoN_stack :
    ∀ (l t : List StateMap) (s : Store), s.history = l ++ t →
      (undoN l.length s).1 = true ∧
      (undoN l.length s).2.current = l.getLastD s.current ∧
      (undoN l.length s).2.history = t := by
  intro l
  induction l with
  | nil => intro t s h; exact ⟨rfl, rfl, h⟩
  | cons a l' ih =>
    intro t s h
    have hundo : s.undo = (true, Store.mk s.tree a (l' ++ t) (s.current :: s.future)) := by
      simp [Store.undo, h]
    have hrec := ih t (Store.mk s.tree a (l' ++ t) (s.current :: s.future)) rfl
    have hlen : (a :: l').length = l'.length + 1 := rfl
    rw [hlen]
    simp only [undoN, hundo]
    refine ⟨by simpa using hrec.1, ?_, hrec.2.2⟩
    rw [List.getLastD_cons]
    exact hrec.2.1

theorem reconcileLayer_none {now : String} {fuel : Nat} {tol : ℚ} {prefer : String}
    {dryRun : Bool} {acc : ReconcileAcc} {e : String × DomState}
    (hcur : acc.store.current e.1 = none) :
    reconcileLayer now fuel tol prefer dryRun acc e = some acc := by
  rw [reconcileLayer, hcur]

theorem reconcileLayer_hit {now : String} {fuel : Nat} {tol : ℚ} {prefer : String}
    {dryRun : Bool} {acc : ReconcileAcc} {e : String × DomState} {st : LayerState}
    (hcur : acc.store.current e.1 = some st) :
    reconcileLayer now fuel tol prefer dryRun acc e
      = reconcileLayerHit now fuel tol prefer dryRun acc e.1 e.2 st := by
  rw [reconcileLayer, hcur]

theorem Store.set_current_other {s : Store} {id : String} {props : List (String × Value)}
    {now : String} {fuel : Nat} {np : NormProps} {s' : Store}
    (h : s.set id props false now fuel = some (np, s'))
    (hid : (s.current id).isSome = true)
    (k : String) (hk : k ≠ id) : s'.current k = s.current k := by
  have hc := (Store.set_eq_some h).2.2.2.2
  rw [hc, if_neg (by simp), Store.ensure_current_of_isSome s id now hid]
  exact StateMap.insert_other _ _ _ _ hk

/-- The live-step result of `reconcileLayer` on a layer present in the store,
split by whether the field loop found a difference. -/
theorem reconcileLayer_live_eq {now : String} {fuel : Nat} {tol : ℚ} {prefer : String}
    {acc acc' : ReconcileAcc} {e : String × DomState} {st : LayerState}
    (hcur : acc.store.current e.1 = some st)
    (h : reconcileLayer now fuel tol prefer false acc e = some acc') :
    (((reconcileFieldsFor st e.2
        (if st.status = "locked" then true else prefer == "store") tol).1 = false ∧
      acc' = acc) ∨
     ((reconcileFieldsFor st e.2
        (if st.status = "locked" then true else prefer == "store") tol).1 = true ∧
      acc'.changed = acc.changed ++ [e.1] ∧
      (∀ k, k ≠ e.1 → acc'.store.current k = acc.store.current k))) := by
  rw [reconcileLayer_hit hcur, reconcileLayerHit] at h
  set auth := (if st.status = "locked" then true else prefer == "store") with hauth
  by_cases hr : (reconcileFieldsFor st e.2 auth tol).1
  · right
    rw [if_neg (by rw [hr]; decide), if_neg (by decide)] at h
    refine ⟨hr, ?_⟩
    split at h
    · exact Option.noConfusion h
    · next store2 heq =>
      injection h with h
      subst h
      refine ⟨rfl, ?_⟩
      intro k hk
      split at heq
      · cases hset : acc.store.set e.1 (reconcileFieldsFor st e.2 auth tol).2.1
            false now fuel with
        | none => rw [hset] at heq; simp at heq
        | some v =>
          obtain ⟨np, s2⟩ := v
          rw [hset] at heq
          have heq2 : s2 = store2 := by simpa using heq
          subst heq2
          exact Store.set_current_other hset (by rw [hcur]; rfl) k hk
      · injection heq with heq
        subst heq
        rfl
  · left
    rw [if_pos (by rw [Bool.not_eq_true] at hr; rw [hr]; decide)] at h
    injection h with h
    exact ⟨by rwa [Bool.not_eq_true] at hr, h.symm⟩

/-- The dry-run step of `reconcileLayer` on a layer present in the store:
append the id when the field loop found a difference, and never touch the
patch or the store. -/
theorem reconcileLayer_dry_eq (now : String) (fuel : Nat) (tol : ℚ) (prefer : String)
    (acc : ReconcileAcc) (e : String × DomState) (st : LayerState)
    (hcur : acc.store.current e.1 = some st) :
    reconcileLayer now fuel tol prefer true acc e =
      (if (reconcileFieldsFor st e.2
          (if st.status = "locked" then true else prefer == "store") tol).1 then
        some ⟨acc.changed ++ [e.1], acc.domPatch, acc.store⟩
      else some acc) := by
  rw [reconcileLayer_hit hcur, reconcileLayerHit]
  set auth := (if st.status = "locked" then true else prefer == "store") with hauth
  by_cases hr : (reconcileFieldsFor st e.2 auth tol).1
  · rw [if_neg (by rw [hr]; decide), if_pos rfl, if_pos hr]
  · rw [if_pos (by rw [Bool.not_eq_true] at hr; rw [hr]; decide), if_neg hr]

/-- Correspondence between the live and dry-run layer loops: starting from
the same original store contents on the unprocessed layer ids (the live fold
only rewrites already-processed ids), the dry fold succeeds, reports exactly
the live fold's changed ids, and leaves its accumulator's patch and store
untouched. -/
theorem reconcile_fold_dry_run (now : String) (fuel : Nat) (tol : ℚ) (prefer : String)
    (s0 : Store) :
    ∀ (entries : List (String × DomState)) (accL accD : ReconcileAcc) (out : ReconcileAcc),
      accD.store = s0 →
      accL.changed = accD.changed →
      (∀ e ∈ entries, accL.store.current e.1 = s0.current e.1) →
      (entries.map Prod.fst).Nodup →
      entries.foldlM (reconcileLayer now fuel tol prefer false) accL = some out →
      entries.foldlM (reconcileLayer now fuel tol prefer true) accD
        = some ⟨out.changed, accD.domPatch, accD.store⟩ := by
  intro entries
  induction entries with
  | nil =>
    intro accL accD out hstore hch _ _ hlive
    simp only [List.foldlM_nil, Option.pure_def, Option.some.injEq] at hlive ⊢
    rw [← hlive, hch]
  | cons e rest ih =>
    intro accL accD out hstore hch hagree hnd hlive
    simp only [List.foldlM_cons, Option.bind_eq_bind] at hlive ⊢
    have hnd1 : e.1 ∉ rest.map Prod.fst := (List.nodup_cons.mp (by simpa using hnd)).1
    have hndr : (rest.map Prod.fst).Nodup := (List.nodup_cons.mp (by simpa using hnd)).2
    cases hstep : reconcileLayer now fuel tol prefer false accL e with
    | none => rw [hstep] at hlive; simp at hlive
    | some accL1 =>
      rw [hstep] at hlive
      simp only [Option.some_bind] at hlive
      have hcur0 : accL.store.current e.1 = s0.current e.1 := hagree e (List.mem_cons_self _ _)
      cases hcur : s0.current e.1 with
      | none =>
        have hstepeq : accL1 = accL := by
          rw [reconcileLayer] at hstep
          rw [hcur0, hcur] at hstep
          exact (Option.some.inj hstep).symm
        subst hstepeq
        rw [show reconcileLayer now fuel tol prefer true accD e = some accD by
          rw [reconcileLayer, hstore, hcur]]
        simp only [Option.some_bind]
        exact ih accL1 accD out hstore hch
          (fun e2 he2 => hagree e2 (List.mem_cons_of_mem _ he2)) hndr hlive
      | some st =>
        have hcases := reconcileLayer_live_eq (hcur0.trans hcur) hstep
        rw [reconcileLayer_dry_eq now fuel tol prefer accD e st (by rw [hstore, hcur])]
        rcases hcases with ⟨hr, hacc⟩ | ⟨hr, hchg, hframe⟩
        · subst hacc
          rw [if_neg (by rw [hr]; decide)]
          simp only [Option.some_bind]
          exact ih accL1 accD out hstore hch
            (fun e2 he2 => hagree e2 (List.mem_cons_of_mem _ he2)) hndr hlive
        · rw [if_pos hr]
          simp only [Option.some_bind]
          refine ih accL1 ⟨accD.changed ++ [e.1], accD.domPatch, accD.store⟩ out hstore ?_ ?_ hndr hlive
          · rw [hchg, hch]
          · intro e2 he2
            have hne : e2.1 ≠ e.1 := by
              intro hEq
              exact hnd1 (hEq ▸ List.mem_map_of_mem Prod.fst he2)
            rw [hframe e2.1 hne]
            exact hagree e2 (List.mem_cons_of_mem _ he2)

mutual
theorem visitNode_zspec (hfp : String → String) :
    (n : XNode) → ∀ (p : Option String) (z : Nat), NodeP hfp n p z
  | XNode.mk tag attrs text children => fun p z => by
    unfold NodeP
    constructor
    · intro hs
      simp only [XNode.tag] at hs
      rw [visitNode, if_pos hs]
    · intro hs
      simp only [XNode.tag] at hs
      have hl := visitChildren_zspec hfp children
        (stableLayerId hfp (XNode.mk tag attrs text children)) z
      unfold ListP at hl
      rw [show visitNode hfp (XNode.mk tag attrs text children) p z
          = (visitNode hfp (XNode.mk tag attrs text children) p z) from rfl]
      simp only [visitNode, hs, Bool.false_eq_true, if_false]
      obtain ⟨hz, hmap⟩ := hl
      refine ⟨rfl, by simp, ?_, ?_, ?_, ?_⟩
      · simp only [List.length_append, List.length_cons, List.length_nil]
        omega
      · simp only [List.map_append, List.map_cons, List.map_nil, hmap,
          List.length_append, List.length_cons, List.length_nil, hz]
        rw [show (visitChildren hfp children
            (stableLayerId hfp (XNode.mk tag attrs text children)) z).2.2.2.length + 1
          = (visitChildren hfp children
            (stableLayerId hfp (XNode.mk tag attrs text children)) z).2.2.2.length + 1 from rfl]
        simpa using (List.range'_1_concat z
          (visitChildren hfp children
            (stableLayerId hfp (XNode.mk tag attrs text children)) z).2.2.2.length).symm
      · simp only [List.getLast?_concat, Option.map_some, List.length_append,
          List.length_cons, List.length_nil, hz]
        norm_num
      · intro r hr
        simp only [List.dropLast_concat] at hr
        have hmem : r.zIndex ∈ (visitChildren hfp children
            (stableLayerId hfp (XNode.mk tag attrs text children)) z).2.2.2.map Row.zIndex :=
          List.mem_map_of_mem Row.zIndex hr
        rw [hmap] at hmem
        have := (List.mem_range'_1.mp hmem).2
        simp only [List.length_append, List.length_cons, List.length_nil]
        omega

theorem visitChildren_zspec (hfp : String → String) :
    (cs : List XNode) → ∀ (pid : String) (z : Nat), ListP hfp cs pid z
  | [] => fun pid z => by
    unfold ListP
    rw [visitChildren]
    exact ⟨by simp, by simp⟩
  | c :: rest => fun pid z => by
    unfold ListP
    have hn := visitNode_zspec hfp c (some pid) z
    unfold NodeP at hn
    have hr := visitChildren_zspec hfp rest pid (visitNode hfp c (some pid) z).2.1
    unfold ListP at hr
    rw [visitChildren]
    by_cases hs : structuralTags.contains c.tag
    · have he := hn.1 hs
      rw [he]
      rw [he] at hr
      simpa using hr
    · obtain ⟨hsome, hne, hz1, hmap1, _, _⟩ := hn.2 (by simpa using hs)
      obtain ⟨b, hb⟩ := Option.isSome_iff_exists.mp hsome
      rw [hb]
      simp only
      set Z1 := (visitNode hfp c (some pid) z).2.1 with hZ1def
      set L1 := (visitNode hfp c (some pid) z).2.2 with hL1def
      set RR := visitChildren hfp rest pid Z1 with hRRdef
      obtain ⟨hz2, hmap2⟩ := hr
      constructor
      · simp only [List.length_append]
        omega
      · simp only [List.map_append, hmap1, hmap2, hz1, List.length_append]
        have hra := List.range'_append z L1.length RR.2.2.2.length 1
        simp only [one_mul] at hra
        rw [hra, Nat.add_comm]
end

/-! ### Further store lemmas used by the claim theorems -/
theorem Store.ensure_future (s : Store) (id now : String) :
    (s.ensure id now).future = s.future := by
  rw [Store.ensure]; split <;> rfl

/-- The per-change body of `batch_set` never touches the tree or the two
history stacks. -/
theorem Store.applyOne_frame {s : Store} {lid : String} {items : List (String × Value)}
    {p : Bool} {now : String} {fuel : Nat} {np : NormProps} {s' : Store}
    (h : s.applyOne lid items p now fuel = some (np, s')) :
    s'.tree = s.tree ∧ s'.history = s.history ∧ s'.future = s.future := by
  cases hn : normalizeProps items now with
  | none => rw [Store.applyOne] at h; simp [hn] at h
  | some np' =>
    rw [Store.applyOne] at h
    simp only [hn, Option.pure_def, Option.bind_eq_bind, Option.some_bind,
      Option.some.injEq, Prod.mk.injEq] at h
    obtain ⟨h1, h2⟩ := h
    subst h1
    subst h2
    exact ⟨Store.ensure_tree s lid now, Store.ensure_history s lid now,
      Store.ensure_future s lid now⟩

/-- The `batch_set` loop: it never touches the tree or the history stacks of
the accumulator store, and the ids of the applied list are exactly the ids of
the changes surviving the validity filter, in order. -/
theorem batchFold_frame (p : Bool) (now : String) (fuel : Nat) :
    ∀ (changes : List BatchChange) (acc out : List (String × NormProps) × Store),
      changes.foldlM (Store.batchStep p now fuel) acc = some out →
      out.2.tree = acc.2.tree ∧ out.2.history = acc.2.history ∧
      out.2.future = acc.2.future ∧
      out.1.map Prod.fst
        = acc.1.map Prod.fst
          ++ (changes.filter BatchChange.valid).map (fun c => c.layerId.getD "") := by
  intro changes
  induction changes with
  | nil =>
    intro acc out h
    simp only [List.foldlM_nil, Option.pure_def, Option.some.injEq] at h
    subst h
    simp
  | cons c rest ih =>
    intro acc out h
    rw [List.foldlM_cons] at h
    cases hstep : Store.batchStep p now fuel acc c with
    | none => rw [hstep] at h; exact Option.noConfusion h
    | some acc1 =>
      rw [hstep] at h
      simp only [Option.bind_eq_bind, Option.some_bind] at h
      cases hlid : c.layerId with
      | none =>
        have hstep' : acc1 = acc := by
          unfold Store.batchStep at hstep
          rw [hlid] at hstep
          exact (Option.some.inj hstep).symm
        rw [hstep'] at h
        have hval : c.valid = false := by simp [BatchChange.valid, hlid]
        have hrec := ih acc out h
        refine ⟨hrec.1, hrec.2.1, hrec.2.2.1, ?_⟩
        rw [hrec.2.2.2]
        simp [List.filter_cons, hval]
      | some lid =>
        cases hpd : c.propsDict with
        | none =>
          have hstep' : acc1 = acc := by
            unfold Store.batchStep at hstep
            rw [hlid, hpd] at hstep
            exact (Option.some.inj hstep).symm
          rw [hstep'] at h
          have hval : c.valid = false := by simp [BatchChange.valid, hpd]
          have hrec := ih acc out h
          refine ⟨hrec.1, hrec.2.1, hrec.2.2.1, ?_⟩
          rw [hrec.2.2.2]
          simp [List.filter_cons, hval]
        | some items =>
          have hstep2 :
              (if lid = "" then (pure acc : Option (List (String × NormProps) × Store))
               else do
                 let r ← acc.2.applyOne lid items p now fuel
                 pure (acc.1 ++ [(lid, r.1)], r.2)) = some acc1 := by
            unfold Store.batchStep at hstep
            rw [hlid, hpd] at hstep
            exact hstep
          by_cases hemp : lid = ""
          · rw [if_pos hemp] at hstep2
            have hstep' : acc1 = acc := (Option.some.inj hstep2).symm
            rw [hstep'] at h
            have hval : c.valid = false := by
              subst hemp
              simp [BatchChange.valid, hlid]
            have hrec := ih acc out h
            refine ⟨hrec.1, hrec.2.1, hrec.2.2.1, ?_⟩
            rw [hrec.2.2.2]
            simp [List.filter_cons, hval]
          · rw [if_neg hemp] at hstep2
            cases happ : acc.2.applyOne lid items p now fuel with
            | none =>
              exfalso
              rw [happ] at hstep2
              exact Option.noConfusion hstep2
            | some r =>
              obtain ⟨np, s'⟩ := r
              rw [happ] at hstep2
              have hacc1 : acc1 = (acc.1 ++ [(lid, np)], s') :=
                (Option.some.inj hstep2).symm
              rw [hacc1] at h
              have hframe := Store.applyOne_frame happ
              have hval : c.valid = true := by
                simp [BatchChange.valid, hlid, hpd, hemp]
              have hrec := ih (acc.1 ++ [(lid, np)], s') out h
              refine ⟨hrec.1.trans hframe.1, hrec.2.1.trans hframe.2.1,
                hrec.2.2.1.trans hframe.2.2, ?_⟩
              rw [hrec.2.2.2]
              simp [List.filter_cons, hval, hlid]

/-! ### Claim theorems -/
/-- **C3** (amended).  Undo/redo exactness: after a successful sequence of
`set` calls each targeting a layer id already present in the store, that many
consecutive `undo()` calls all succeed and restore the state map to the state
before the first `set`; one `undo()` followed by one `redo()` restores the
state and undo stack that preceded the `redo`; `undo()`/`redo()` return
`false` (raising nothing) on an empty stack.  (For ids not yet present the
restoration fails — see the counterexample — because `set` runs
`_ensure_layer` before `_commit_history`, so the committed snapshot already
carries the auto-created entry.) -/
theorem c3_undo_redo_exactness (now : String) (fuel : Nat) :
    (∀ (calls : List (String × List (String × Value))) (s sN : Store),
      applySets now fuel s calls = some sN →
      (∀ c ∈ calls, (s.current c.1).isSome = true) →
      (undoN calls.length sN).1 = true ∧
      (undoN calls.length sN).2.current = s.current) ∧
    (∀ s : Store, s.history ≠ [] →
      s.undo.2.redo.1 = true ∧ s.undo.2.redo.2.current = s.current ∧
        s.undo.2.redo.2.history = s.history) ∧
    (∀ s : Store, s.history = [] → s.undo = (false, s)) ∧
    (∀ s : Store, s.future = [] → s.redo = (false, s)) := by
  refine ⟨?_, ?_, ?_, ?_⟩
  · intro calls s sN h hknown
    obtain ⟨l, hlen, hhist, hlast⟩ := applySets_history now fuel calls s sN h hknown
    have hu := undoN_stack l s.history sN hhist
    rw [← hlen]
    exact ⟨hu.1, hu.2.1.trans hlast⟩
  · intro s hne
    cases hh : s.history with
    | nil => exact absurd hh hne
    | cons a rest =>
      have hu : s.undo = (true, Store.mk s.tree a rest (s.current :: s.future)) := by
        simp [Store.undo, hh]
      rw [hu]
      exact ⟨rfl, rfl, rfl⟩
  · intro s hh
    simp [Store.undo, hh]
  · intro s hf
    simp [Store.redo, hf]

/-- The ids of a one-call sequence on `c3store` are present in the store. -/
theorem c3w_known :
    ∀ c ∈ [("a", [("x", Value.num 5)])], ((c3store.current c.1)).isSome = true := by
  intro c hc
  rw [List.mem_singleton.mp hc]
  rfl

/-- A committed store has a nonempty undo stack. -/
theorem c3w_hist : (emptyStore.commit).history ≠ [] := by
  simp [Store.commit]

theorem c3_witness :
    ((undoN [("a", [("x", Value.num 5)])].length
        ((applySets "t1" 1 c3store [("a", [("x", Value.num 5)])]).getD c3store)).1 = true ∧
      (undoN [("a", [("x", Value.num 5)])].length
        ((applySets "t1" 1 c3store [("a", [("x", Value.num 5)])]).getD c3store)).2.current
        = c3store.current) ∧
    ((emptyStore.commit).undo.2.redo.1 = true ∧
      (emptyStore.commit).undo.2.redo.2.current = (emptyStore.commit).current ∧
      (emptyStore.commit).undo.2.redo.2.history = (emptyStore.commit).history) ∧
    emptyStore.undo = (false, emptyStore) ∧
    emptyStore.redo = (false, emptyStore) :=
  ⟨(c3_undo_redo_exactness "t1" 1).1 [("a", [("x", Value.num 5)])] c3store _ rfl c3w_known,
   (c3_undo_redo_exactness "t1" 1).2.1 emptyStore.commit c3w_hist,
   (c3_undo_redo_exactness "t1" 1).2.2.1 emptyStore rfl,
   (c3_undo_redo_exactness "t1" 1).2.2.2 emptyStore rfl⟩

/-- **C3** counterexample.  One `set` on an id unknown to the store followed
by one `undo()` does NOT restore the pre-set state map: `set` runs
`_ensure_layer` before `_commit_history`, so the snapshot it pushes (and that
`undo` restores) already contains the auto-created default entry for the
unknown id. -/
theorem c3_counterexample :
    ∃ s' : Store,
      applySets "t1" 1 emptyStore [("ghost", [])] = some s' ∧
      (undoN 1 s').1 = true ∧
      ((undoN 1 s').2.current "ghost").isSome = true ∧
      emptyStore.current "ghost" = none ∧
      (undoN 1 s').2.current ≠ emptyStore.current := by
  refine ⟨(applySets "t1" 1 emptyStore [("ghost", [])]).getD emptyStore,
    rfl, rfl, rfl, rfl, ?_⟩
  intro heq
  have hv : (((undoN 1 ((applySets "t1" 1 emptyStore [("ghost", [])]).getD
      emptyStore)).2.current) "ghost").isSome = true := rfl
  rw [heq] at hv
  simpa [emptyStore] using hv

/-- **C6** (amended).  Writes are lenient: `StateStore.set` succeeds exactly
when props normalization does (regardless of whether the id is known) and
auto-creates the layer.  But the store itself has NO strict read:
`StateStore.get_layer_state` also auto-creates (via `_ensure_layer`) and
returns the default state instead of raising.  The lookup failure (`KeyError`)
on unknown ids is raised by the service layer's `_layer_full_by_id`, which
searches the compiled layer map and never touches the store's state map. -/
theorem c6_unknown_id (now : String) (fuel : Nat) :
    (∀ (s : Store) (id : String) (props : List (String × Value)),
      (s.set id props true now fuel).isSome = (normalizeProps props now).isSome) ∧
    (∀ (s : Store) (id : String) (props : List (String × Value)) (np : NormProps)
        (s' : Store),
      s.set id props true now fuel = some (np, s') →
      (s'.current id).isSome = true) ∧
    (∀ (s : Store) (id : String), s.current id = none →
      (s.getLayerState id now).1 = defaultLayerState Value.null now ∧
      ((s.getLayerState id now).2.current id)
        = some (defaultLayerState Value.null now)) ∧
    (∀ (layers : List Row) (id : String), (∀ l ∈ layers, l.id ≠ id) →
      layerFullById layers id = none) := by
  refine ⟨?_, ?_, ?_, ?_⟩
  · intro s id props
    cases hn : normalizeProps props now with
    | none => simp [Store.set, hn]
    | some np => simp [Store.set, hn]
  · intro s id props np s' h
    have hc := (Store.set_eq_some h).2.2.2.2
    rw [hc]
    have hbase : ((((s.ensure id now).current).insert id
        (mergeState ((s.ensure id now).current.getSt id now) np)) id).isSome = true := by
      rw [StateMap.insert_same]
      rfl
    by_cases hp : (true = true) ∧ s.tree id ≠ []
    · rw [if_pos hp]
      exact propagateFuel_isSome _ _ _ _ _ _ _ _ hbase
    · rw [if_neg hp]
      exact hbase
  · intro s id hnone
    constructor
    · simp [Store.getLayerState, Store.ensure, hnone, StateMap.getSt, StateMap.insert]
    · simp [Store.getLayerState, Store.ensure, hnone, StateMap.insert]
  · intro layers id hall
    rw [layerFullById]
    rw [List.find?_eq_none]
    intro l hl
    simp [hall l hl]

theorem c6_witness :
    (emptyStore.set "ghost" [("nonsense", Value.null)] true "t1" 1).isSome
      = (normalizeProps [("nonsense", Value.null)] "t1").isSome ∧
    (((emptyStore.set "ghost" [] true "t1" 1).getD
        ({}, emptyStore)).2.current "ghost").isSome = true ∧
    ((emptyStore.getLayerState "gh2" "t1").1 = defaultLayerState Value.null "t1" ∧
      ((emptyStore.getLayerState "gh2" "t1").2.current "gh2")
        = some (defaultLayerState Value.null "t1")) ∧
    layerFullById [] "ghost" = none :=
  ⟨(c6_unknown_id "t1" 1).1 emptyStore "ghost" [("nonsense", Value.null)],
   (c6_unknown_id "t1" 1).2.1 emptyStore "ghost" [] _ _ rfl,
   (c6_unknown_id "t1" 1).2.2.1 emptyStore "gh2" rfl,
   (c6_unknown_id "t1" 1).2.2.2 [] "ghost" (fun l hl => absurd hl (List.not_mem_nil l))⟩

/-- **C6** counterexample.  The claim says a pure read of an unknown id
raises a lookup failure and leaves the state map unchanged.  In the code,
`StateStore.get_layer_state` raises nothing on an unknown id: it auto-creates
the entry (mutating the state map) and returns the default state. -/
theorem c6_counterexample :
    (emptyStore.getLayerState "ghost" "t1").1 = defaultLayerState Value.null "t1" ∧
    ((emptyStore.getLayerState "ghost" "t1").2.current "ghost")
      = some (defaultLayerState Value.null "t1") ∧
    emptyStore.current "ghost" = none :=
  ⟨rfl, rfl, rfl⟩

/-- **C8**.  Determinism of compilation: the compiled layer rows (ids,
fingerprints and their order) are a function of the parsed node tree and the
fingerprint hash alone — in particular they do not depend on the
`generatedAt` timestamp, the only input that varies between two runs on
byte-identical source with the same compiler version. -/
theorem c8_compile_deterministic (hfp hsum1 hsum2 : String → String)
    (encMin1 encMin2 : LayerMapMinDoc → String)
    (encFull1 encFull2 : LayerMapFullDoc → String)
    (cv1 cv2 svg1 svg2 : String) (root : XNode) (t1 t2 : String) :
    ((compile hfp hsum1 encMin1 encFull1 cv1 svg1 root t1).2.1.layers.map Row.id
      = (compile hfp hsum2 encMin2 encFull2 cv2 svg2 root t2).2.1.layers.map Row.id) ∧
    ((compile hfp hsum1 encMin1 encFull1 cv1 svg1 root t1).2.1.layers.map Row.fingerprint
      = (compile hfp hsum2 encMin2 encFull2 cv2 svg2 root t2).2.1.layers.map
          Row.fingerprint) ∧
    ((compile hfp hsum1 encMin1 encFull1 cv1 svg1 root t1).1.layers.map MinRow.id
      = (compile hfp hsum2 encMin2 encFull2 cv2 svg2 root t2).1.layers.map MinRow.id) ∧
    (compile hfp hsum1 encMin1 encFull1 cv1 svg1 root t1).2.1.layers
      = (compile hfp hsum2 encMin2 encFull2 cv2 svg2 root t2).2.1.layers :=
  ⟨rfl, rfl, rfl, rfl⟩

/-- **C9** (amended).  `needs_recompile` decides with precedence
manual override > missing manifest > source-checksum mismatch >
compiler-version mismatch > unchanged.  The four RECOMPILE outcomes each
produce their own distinct reason string; the unchanged outcome produces NO
reason string (`None`), not a fifth distinct one. -/
theorem c9_needs_recompile (hsum : String → String) (cv svgText : String) :
    (∀ previous, needsRecompile hsum cv svgText previous true
      = (true, some "manual_recompile")) ∧
    (needsRecompile hsum cv svgText none false = (true, some "missing_manifest")) ∧
    (∀ m : PrevManifest, m.sourceChecksum ≠ some (hsum svgText) →
      needsRecompile hsum cv svgText (some m) false
        = (true, some "source_checksum_changed")) ∧
    (∀ m : PrevManifest, m.sourceChecksum = some (hsum svgText) →
      m.compilerVersion ≠ some cv →
      needsRecompile hsum cv svgText (some m) false
        = (true, some "compiler_version_changed")) ∧
    (∀ m : PrevManifest, m.sourceChecksum = some (hsum svgText) →
      m.compilerVersion = some cv →
      needsRecompile hsum cv svgText (some m) false = (false, none)) ∧
    (["manual_recompile", "missing_manifest", "source_checksum_changed",
      "compiler_version_changed"] : List String).Nodup := by
  refine ⟨fun p => rfl, rfl, ?_, ?_, ?_, by decide⟩
  · intro m hm
    simp only [needsRecompile, Bool.false_eq_true, if_false]
    rw [if_pos hm]
  · intro m h1 h2
    simp only [needsRecompile, Bool.false_eq_true, if_false]
    rw [if_neg (fun hc => hc h1), if_pos h2]
  · intro m h1 h2
    simp only [needsRecompile, Bool.false_eq_true, if_false]
    rw [if_neg (fun hc => hc h1), if_neg (fun hc => hc h2)]

theorem c9_witness :
    needsRecompile (fun _ => "c") "1.0" "src" (some ⟨some "c", some "1.0"⟩) false
      = (false, none) :=
  (c9_needs_recompile (fun _ => "c") "1.0" "src").2.2.2.2.1
    ⟨some "c", some "1.0"⟩ rfl rfl

/-- **C9** counterexample.  The claim says each of the five outcomes produces
its own distinct reason string.  The unchanged outcome produces no reason
string at all: its reason is `None`. -/
theorem c9_counterexample :
    (needsRecompile (fun _ => "c") "1.0" "src" (some ⟨some "c", some "1.0"⟩) false).2
      = none ∧
    ∀ r : String,
      (needsRecompile (fun _ => "c") "1.0" "src"
        (some ⟨some "c", some "1.0"⟩) false).2 ≠ some r :=
  ⟨rfl, fun r h => Option.noConfusion h⟩

/-- **C10**.  Every successful `batch_set` pushes exactly one history
snapshot (the pre-call state map) and clears the redo stack — however many
entries apply, zero included — so each call costs exactly one undo step; the
applied list names exactly the entries surviving the validity filter
(`layerId` present and truthy, `props` a dict), in order, and invalid entries
are dropped silently. -/
theorem c10_batch_single_snapshot (s : Store) (changes : List BatchChange)
    (p : Bool) (now : String) (fuel : Nat)
    (applied : List (String × NormProps)) (s2 : Store)
    (h : s.batchSet changes p now fuel = some (applied, s2)) :
    s2.history = s.current :: s.history ∧
    s2.future = [] ∧
    s2.tree = s.tree ∧
    applied.map Prod.fst
      = (changes.filter BatchChange.valid).map (fun c => c.layerId.getD "") := by
  rw [Store.batchSet] at h
  have hf := batchFold_frame p now fuel changes ([], s.commit) (applied, s2) h
  exact ⟨hf.2.1, hf.2.2.1, hf.1, hf.2.2.2⟩

theorem c10_witness :
    ((emptyStore.batchSet c10changes true "t1" 1).getD ([], emptyStore)).2.history
        = emptyStore.current :: emptyStore.history ∧
    ((emptyStore.batchSet c10changes true "t1" 1).getD ([], emptyStore)).2.future = [] ∧
    ((emptyStore.batchSet c10changes true "t1" 1).getD ([], emptyStore)).2.tree
        = emptyStore.tree ∧
    ((emptyStore.batchSet c10changes true "t1" 1).getD ([], emptyStore)).1.map Prod.fst
        = (c10changes.filter BatchChange.valid).map (fun c => c.layerId.getD "") :=
  c10_batch_single_snapshot emptyStore c10changes true "t1" 1 _ _ rfl

/-- **C1** (amended).  z-index is assigned exactly once per emitted layer by
depth-first POST-order visit order: a visited node's own row is appended
after its subtree's rows and receives the next counter value, so a parent's
z-index strictly EXCEEDS every z-index in its subtree (children included);
structural node kinds are skipped entirely — no row, counter untouched,
subtree not traversed. -/
theorem c1_zindex_postorder (hfp : String → String) (n : XNode) (p : Option String)
    (z : Nat) :
    (structuralTags.contains n.tag = true → visitNode hfp n p z = (none, z, [])) ∧
    (structuralTags.contains n.tag = false →
      (visitNode hfp n p z).2.2 ≠ [] ∧
      (visitNode hfp n p z).2.1 = z + (visitNode hfp n p z).2.2.length ∧
      (visitNode hfp n p z).2.2.map Row.zIndex
        = List.range' z (visitNode hfp n p z).2.2.length ∧
      ((visitNode hfp n p z).2.2.getLast?).map Row.id = some (stableLayerId hfp n) ∧
      ((visitNode hfp n p z).2.2.getLast?).map Row.zIndex
        = some (z + (visitNode hfp n p z).2.2.length - 1) ∧
      (∀ r ∈ (visitNode hfp n p z).2.2.dropLast,
        r.zIndex < z + (visitNode hfp n p z).2.2.length - 1)) := by
  obtain ⟨h1, h2⟩ := visitNode_zspec hfp n p z
  refine ⟨h1, fun hs => ?_⟩
  obtain ⟨_, hne, hz, hmap, hlast, hdrop⟩ := h2 hs
  refine ⟨hne, hz, hmap, ?_, hlast, hdrop⟩
  cases n with
  | mk tag attrs text children =>
    simp only [XNode.tag] at hs
    simp only [visitNode, hs, Bool.false_eq_true, if_false, List.getLast?_concat,
      Option.map_some]
    rfl

theorem c1_witness :
    visitNode c1hash (XNode.mk "defs" [] "" []) none 0 = (none, 0, []) ∧
    ((visitNode c1hash c1doc none 0).2.2.getLast?).map Row.id
      = some (stableLayerId c1hash c1doc) :=
  ⟨(c1_zindex_postorder c1hash (XNode.mk "defs" [] "" []) none 0).1 (by decide),
   ((c1_zindex_postorder c1hash c1doc none 0).2 (by decide)).2.2.2.1⟩

/-- **C1** counterexample.  The claim says every parent's z-index is strictly
LESS than each of its children's.  Compiling `svg > g#g1 > rect#r1` yields the
rows below: the group `g1` (whose `children` list is `["r1"]`) has z-index 1
while its child `r1` has z-index 0 — the parent's z-index is the larger one
(post-order assignment, parent AFTER children). -/
theorem c1_counterexample :
    ((collectLayers c1hash c1doc).map fun r => (r.id, r.zIndex, r.children))
      = [("r1", 0, []), ("g1", 1, ["r1"]), ("layer_svg_aaaa", 2, ["g1"])] := by
  simp only [collectLayers, visitNode, visitChildren, c1hash, c1doc]
  decide

/-- `RuntimeService.set_layer_state` on the shape layer `"a"` reduces to a
store `set` of the clamped rotation. -/
theorem c7_service_eq (s : Store) (v : ℚ) (now : String) (fuel : Nat) :
    serviceSetLayerState [c7row] s "a" [("rotation", Value.num v)] now fuel
      = Option.bind
          (s.set "a" [("rotation", Value.num (max (-|(45:ℚ)|) (min |(45:ℚ)| v)))]
            true now fuel)
          (fun r =>
            some ([("rotation", Value.num (max (-|(45:ℚ)|) (min |(45:ℚ)| v)))],
              r.1, r.2)) := rfl

/-- **C7** (amended).  Rotation is clamped to the declared 45° bound only on
the SERVICE mutation path (`RuntimeService.set_layer_state` via
`_clamp_props`): the stored rotation is `max (-45) (min 45 v)`, inside
`[-45, 45]`.  The store-level path (`StateStore.set` / `_normalize_props`)
performs no rotation clamping and stores the raw value — so states with
rotation outside the bound are reachable (see the counterexample). -/
theorem c7_rotation_clamp (now : String) (fuel : Nat) :
    (∀ (s : Store) (v : ℚ) (clamped : List (String × Value)) (np : NormProps)
        (s2 : Store),
      s.tree "a" = [] →
      serviceSetLayerState [c7row] s "a" [("rotation", Value.num v)] now fuel
        = some (clamped, np, s2) →
      (s2.current "a").map LayerState.rotation = some (max (-45) (min 45 v)) ∧
      -45 ≤ max (-(45:ℚ)) (min 45 v) ∧ max (-(45:ℚ)) (min 45 v) ≤ 45) ∧
    (∀ (s : Store) (v : ℚ) (np : NormProps) (s2 : Store),
      s.tree "a" = [] →
      s.set "a" [("rotation", Value.num v)] true now fuel = some (np, s2) →
      (s2.current "a").map LayerState.rotation = some v) := by
  have h45 : |(45:ℚ)| = 45 := abs_of_pos (by norm_num)
  constructor
  · intro s v clamped np s2 htree hset
    rw [c7_service_eq] at hset
    cases hs : s.set "a" [("rotation", Value.num (max (-|(45:ℚ)|) (min |(45:ℚ)| v)))]
        true now fuel with
    | none => rw [hs] at hset; exact Option.noConfusion hset
    | some r =>
      obtain ⟨np', s2'⟩ := r
      rw [hs] at hset
      simp only [Option.some_bind] at hset
      have hset2 := Option.some.inj hset
      have hs2 : s2 = s2' := by
        have := congrArg (fun t => t.2.2) hset2
        simpa using this.symm
      subst hs2
      have hn : normalizeProps [("rotation", Value.num (max (-|(45:ℚ)|) (min |(45:ℚ)| v)))] now = some { rotation := some (max (-|(45:ℚ)|) (min |(45:ℚ)| v)), lastUpdate := some now } := rfl
      have hchar := Store.set_eq_some hs
      have hnp' : np' = { rotation := some (max (-|(45:ℚ)|) (min |(45:ℚ)| v)), lastUpdate := some now } := by
        have := hchar.1
        rw [hn] at this
        exact (Option.some.inj this).symm
      have hc : s2.current = (((s.ensure "a" now).current).insert "a"
          (mergeState ((s.ensure "a" now).current.getSt "a" now) np')) := by
        rw [hchar.2.2.2.2, if_neg]
        intro hcontra
        exact hcontra.2 htree
      refine ⟨?_, le_max_left _ _, max_le (by norm_num) (min_le_left _ _)⟩
      rw [hc, StateMap.insert_same, hnp']
      simp [mergeState, h45]
  · intro s v np s2 htree hset
    have hn : normalizeProps [("rotation", Value.num v)] now
        = some { rotation := some v, lastUpdate := some now } := rfl
    have hchar := Store.set_eq_some hset
    have hnp : np = { rotation := some v, lastUpdate := some now } := by
      have := hchar.1
      rw [hn] at this
      exact (Option.some.inj this).symm
    have hc : s2.current = (((s.ensure "a" now).current).insert "a"
        (mergeState ((s.ensure "a" now).current.getSt "a" now) np)) := by
      rw [hchar.2.2.2.2, if_neg]
      intro hcontra
      exact hcontra.2 htree
    rw [hc, StateMap.insert_same, hnp]
    simp [mergeState]

theorem c7_witness :
    ((((serviceSetLayerState [c7row] emptyStore "a" [("rotation", Value.num 999)]
          "t1" 1).getD ([], {}, emptyStore)).2.2.current "a").map LayerState.rotation
        = some (max (-45) (min 45 999)) ∧
      -45 ≤ max (-(45:ℚ)) (min 45 999) ∧ max (-(45:ℚ)) (min 45 999) ≤ 45) ∧
    (((emptyStore.set "a" [("rotation", Value.num 999)] true "t1" 1).getD
        ({}, emptyStore)).2.current "a").map LayerState.rotation = some 999 :=
  ⟨(c7_rotation_clamp "t1" 1).1 emptyStore 999 _ _ _ rfl rfl,
   (c7_rotation_clamp "t1" 1).2 emptyStore 999 _ _ rfl rfl⟩

/-- **C7** counterexample.  The claim says rotation is clamped by EVERY
mutation path and no reachable state holds a rotation outside ±45.  The
store-level mutation path (`StateStore.set`, whose `_normalize_props` is one
of the claim's cited sources) stores `rotation:999` verbatim: the resulting
state holds rotation `999`, far outside the 45° bound. -/
theorem c7_counterexample :
    (((emptyStore.set "a" [("rotation", Value.num 999)] true "t1" 1).getD
        ({}, emptyStore)).2.current "a").map LayerState.rotation = some 999 ∧
    ¬((999:ℚ) ≤ 45) ∧
    (emptyStore.set "a" [("rotation", Value.num 999)] true "t1" 1).isSome = true := by
  refine ⟨rfl, by norm_num, rfl⟩

/-! ### Evaluation of the concrete C4/C5 reconciliation scenario -/
theorem c4v_x : valuesDifferent (Value.num 7) (Value.num 99) c4tol = true := by
  norm_num [valuesDifferent, Value.toNum?, c4tol]

theorem c4v_y : valuesDifferent (Value.num 0) Value.null c4tol = true := by
  simp [valuesDifferent, Value.toNum?]

theorem c4v_one : valuesDifferent (Value.num 1) Value.null c4tol = true := by
  simp [valuesDifferent, Value.toNum?]

theorem c4v_vis : valuesDifferent (Value.bool true) Value.null c4tol = true := by
  simp [valuesDifferent, Value.toNum?]

theorem c4v_orig : valuesDifferent Value.null Value.null c4tol = false := by
  simp [valuesDifferent, Value.toNum?]

theorem c4v_st : valuesDifferent (Value.str "locked") (Value.str "idle") c4tol = true := by
  simp [valuesDifferent, Value.toNum?]

theorem c4l_x :
    List.lookup "x" [("x", Value.num 99), ("status", Value.str "idle")]
      = some (Value.num 99) := rfl

theorem c4l_st :
    List.lookup "status" [("x", Value.num 99), ("status", Value.str "idle")]
      = some (Value.str "idle") := rfl

theorem c4l_y :
    List.lookup "y" [("x", Value.num 99), ("status", Value.str "idle")] = none := rfl

theorem c4l_scale :
    List.lookup "scale" [("x", Value.num 99), ("status", Value.str "idle")] = none := rfl

theorem c4l_rot :
    List.lookup "rotation" [("x", Value.num 99), ("status", Value.str "idle")] = none := rfl

theorem c4l_op :
    List.lookup "opacity" [("x", Value.num 99), ("status", Value.str "idle")] = none := rfl

theorem c4l_vis :
    List.lookup "visible" [("x", Value.num 99), ("status", Value.str "idle")] = none := rfl

theorem c4l_orig :
    List.lookup "origin" [("x", Value.num 99), ("status", Value.str "idle")] = none := rfl

theorem c4l_z :
    List.lookup "z" [("x", Value.num 99), ("status", Value.str "idle")] = none := rfl

/-- The field loop on the locked layer under store authority: a change is
needed, nothing is pushed to the store, and the DOM patch collects every
store-side field that differs from the (partial) DOM dict. -/
theorem c4_fields :
    reconcileFieldsFor c4st [("x", Value.num 99), ("status", Value.str "idle")] true c4tol
      = (true, [], c4patch) := by
  simp [reconcileFieldsFor, reconcileFields, fieldValue, c4st, defaultLayerState,
    c4v_x, c4v_y, c4v_one, c4v_vis, c4v_orig, c4v_st, c4patch,
    c4l_x, c4l_st, c4l_y, c4l_scale, c4l_rot, c4l_op, c4l_vis, c4l_orig, c4l_z]

/-- The live reconcile run of the C4 scenario. -/
theorem c4_eval :
    reconcileWithDom c4store c4dom "dom" false c4tol "t2" 1
      = some (["child_a"], [("child_a", c4patch)], c4store) := by
  simp only [reconcileWithDom, c4dom]
  rw [if_neg (by simp)]
  simp only [List.foldlM_cons, List.foldlM_nil]
  rw [reconcileLayer_hit (by rfl)]
  rw [reconcileLayerHit]
  simp only [show (if c4st.status = "locked" then true else ("dom" == "store")) = true from
    rfl, c4_fields]
  simp [c4patch, sortedDedup, sortStrs, insertStr, List.eraseDups]

/-- The dry reconcile run of the C4 scenario. -/
theorem c5_dry_eval :
    reconcileWithDom c4store c4dom "dom" true c4tol "t2" 1
      = some (["child_a"], [], c4store) := by
  simp only [reconcileWithDom, c4dom]
  rw [if_neg (by simp)]
  simp only [List.foldlM_cons, List.foldlM_nil]
  rw [reconcileLayer_dry_eq _ _ _ _ _ _ c4st (by rfl)]
  simp only [show (if c4st.status = "locked" then true else ("dom" == "store")) = true from
    rfl, c4_fields]
  simp [sortedDedup, sortStrs, insertStr, List.eraseDups]

/-- **C4** (amended).  Lock override: with store state `{x:7,
status:"locked"}`, external state `{x:99, status:"idle"}` and preference
"dom", reconciliation yields `changedLayerIds = ["child_a"]`, keeps the
store's `x` at 7, and patches the DOM with the STORE values — but the patch
is not `{x:7}`: it lists every store field differing from the partial DOM
dict (x, y, scale, rotation, opacity, visible, status, z — `{x:7}` and
`status:"locked"` among them), since with store authority a field missing
from the DOM dict still counts as different. -/
theorem c4_lock_override :
    (reconcileWithDom c4store c4dom "dom" false c4tol "t2" 1).map (fun r => r.1)
      = some ["child_a"] ∧
    (reconcileWithDom c4store c4dom "dom" false c4tol "t2" 1).map (fun r => r.2.1)
      = some [("child_a", c4patch)] ∧
    c4patch.lookup "x" = some (Value.num 7) ∧
    c4patch.lookup "status" = some (Value.str "locked") ∧
    (reconcileWithDom c4store c4dom "dom" false c4tol "t2" 1).map
        (fun r => (r.2.2.current "child_a").map LayerState.x)
      = some (some 7) ∧
    (reconcileWithDom c4store c4dom "dom" false c4tol "t2" 1).map (fun r => r.2.2)
      = some c4store := by
  refine ⟨by rw [c4_eval]; rfl, by rw [c4_eval]; rfl, rfl, rfl, by rw [c4_eval]; rfl,
    by rw [c4_eval]; rfl⟩

/-- **C4** counterexample.  The claim says the external patch equals `{x:7}`.
The actual patch for `child_a` has eight entries (every tracked store field
absent from or differing in the partial DOM dict), not one. -/
theorem c4_counterexample :
    (reconcileWithDom c4store c4dom "dom" false c4tol "t2" 1).map (fun r => r.2.1)
      ≠ some [("child_a", [("x", Value.num 7)])] ∧
    (reconcileWithDom c4store c4dom "dom" false c4tol "t2" 1).map
        (fun r => (r.2.1.lookup "child_a").map List.length)
      = some (some 8) := by
  constructor
  · rw [c4_eval]
    simp [c4patch]
  · rw [c4_eval]
    rfl

/-- **C5** (amended).  A dry run computes exactly the changed-layer-id list a
live run would and leaves the store untouched, but it does NOT compute the
patch: `dry_run=True` short-circuits before any patch entry is recorded, so
the dry run's patch is always empty (the live patch need not be — see the
counterexample). -/
theorem c5_dry_run (now : String) (fuel : Nat) (tol : ℚ) (prefer : String)
    (s : Store) (entries : List (String × DomState))
    (out : List String × List (String × List (String × Value)) × Store)
    (hnd : (entries.map Prod.fst).Nodup)
    (h : reconcileWithDom s entries prefer false tol now fuel = some out) :
    reconcileWithDom s entries prefer true tol now fuel = some (out.1, [], s) := by
  rw [reconcileWithDom] at h ⊢
  by_cases hp : prefer ≠ "dom" ∧ prefer ≠ "store"
  · rw [if_pos hp] at h
    exact absurd h (by simp)
  · rw [if_neg hp] at h ⊢
    cases hfold : entries.foldlM (reconcileLayer now fuel tol prefer false)
        ⟨[], [], s⟩ with
    | none => rw [hfold] at h; simp at h
    | some acc =>
      rw [hfold] at h
      simp only [Option.bind_eq_bind, Option.some_bind, Option.pure_def,
        Option.some.injEq] at h
      have hdry := reconcile_fold_dry_run now fuel tol prefer s entries
        ⟨[], [], s⟩ ⟨[], [], s⟩ acc rfl rfl (fun e _ => rfl) hnd hfold
      rw [hdry]
      simp only [Option.bind_eq_bind, Option.some_bind, Option.pure_def,
        Option.some.injEq]
      rw [← h]

theorem c5_witness :
    reconcileWithDom c4store c4dom "dom" true c4tol "t2" 1
      = some ((["child_a"], [("child_a", c4patch)], c4store).1, [], c4store) :=
  c5_dry_run "t2" 1 c4tol "dom" c4store c4dom
    (["child_a"], [("child_a", c4patch)], c4store) (by decide) c4_eval

/-- **C5** counterexample.  The claim says a dry run computes the SAME
external patch as a live run.  In the C4 scenario the live run's patch is the
nonempty `[("child_a", c4patch)]` while the dry run's patch is `[]`. -/
theorem c5_counterexample :
    (reconcileWithDom c4store c4dom "dom" false c4tol "t2" 1).map (fun r => r.2.1)
      = some [("child_a", c4patch)] ∧
    (reconcileWithDom c4store c4dom "dom" true c4tol "t2" 1).map (fun r => r.2.1)
      = some [] ∧
    ([("child_a", c4patch)] : List (String × List (String × Value))) ≠ [] := by
  refine ⟨by rw [c4_eval]; rfl, by rw [c5_dry_eval]; rfl, by simp⟩

end SvgAnim
